import Mathlib

/-!
# Fanshawe Navigator: the chat and map component of `src/frontend/src/App.jsx`

A shallow embedding of the React component `FanshaweNavigator`:

* the JSON values the component receives from the backend, with the JavaScript
  operations the component applies to them (property access, truthiness, `===`, `||`);
* the component state held in `useState` cells;
* every event handler, split at its `await` points into the part that runs when the
  handler is called and the parts that run when a request settles;
* the component as an event-driven machine with a list of requests in flight.

A network request settles with `some j` (the body parsed by `response.json()`) or with
`none` (`fetch` or `response.json()` rejected).  The cells `originBuilding` and
`destBuilding`, which are never set, and the ref `messagesEndRef` are not part of the
embedded state.
-/

namespace FanshaweNavigator

/-! ## JSON values and the JavaScript operations used on them -/

/-- A value produced by `JSON.parse`; a number is the rational value of the parsed double.
A numeral too large for a double, which `JSON.parse` reads as `Infinity`, has no
counterpart here: responses holding one are outside the embedding. -/
inductive Json where
  | null
  | bool (b : Bool)
  | num (q : Rat)
  | str (s : String)
  | arr (xs : List Json)
  | obj (kvs : List (String × Json))

/-- A JavaScript value met in the component: `none` is `undefined`. -/
abbrev JsVal := Option Json

/-- Outcome of an expression that may throw (`none` is a thrown `TypeError`). -/
abbrev Throws (α : Type) := Option α

/-- JavaScript truthiness (`ToBoolean`). -/
def truthy : JsVal → Bool
  | none => false
  | some .null => false
  | some (.bool b) => b
  | some (.num q) => decide (q ≠ 0)
  | some (.str s) => decide (s ≠ "")
  | some (.arr _) => true
  | some (.obj _) => true

/-- Own property of a parsed object: with a repeated key `JSON.parse` keeps the last. -/
def lookupKey (kvs : List (String × Json)) (k : String) : JsVal :=
  (kvs.reverse.find? (fun kv => kv.1 == k)).map (fun kv => kv.2)

/-- Property access `v.k` for the keys the component reads (`resposta`, `tipo`, `origem`,
`destino`, `texto_formatado`, `properties`, `name`, `amenity`, `ref`): it throws on `null`,
reads the own property of an object and is `undefined` on every other value. -/
def getProp (v : Json) (k : String) : Throws JsVal :=
  match v with
  | .null => none
  | .obj kvs => some (lookupKey kvs k)
  | _ => some none

/-- Strict equality `a === b`.  Arrays and objects compare by identity, and the values
compared in the component come from different responses (or from a literal), so they
are never the same object. -/
def strictEq (a b : JsVal) : Bool :=
  match a, b with
  | none, none => true
  | some .null, some .null => true
  | some (.bool x), some (.bool y) => x == y
  | some (.num x), some (.num y) => decide (x = y)
  | some (.str x), some (.str y) => x == y
  | _, _ => false

mutual
/-- Whether the conversion of a parsed value to a string throws.  It does on an object
with an own property `toString`, which hides the inherited method and is never
callable, and on an array holding such a value, since `join` converts every element. -/
def toStringThrows : Json → Bool
  | .obj kvs => (lookupKey kvs "toString").isSome
  | .arr xs => anyToStringThrows xs
  | _ => false
/-- Whether the conversion of one of the values to a string throws. -/
def anyToStringThrows : List Json → Bool
  | [] => false
  | x :: xs => toStringThrows x || anyToStringThrows xs
end

/-- Property access on a JavaScript value: it throws on `undefined` as on `null`. -/
def getPropV (v : JsVal) (k : String) : Throws JsVal :=
  match v with
  | none => none
  | some j => getProp j k

/-- The value of `v.k` where the access does not throw (and `undefined` where it does). -/
def field (v : Json) (k : String) : JsVal :=
  (getProp v k).getD none

/-- The operator `a || b` with a parsed value on the right. -/
def jsOr (a : JsVal) (b : Json) : Json :=
  match a with
  | some j => if truthy (some j) then j else b
  | none => b

/-- White space and line terminators removed by `String.prototype.trim`. -/
def isTrimChar (c : Char) : Bool :=
  let n := c.toNat
  n == 0x09 || n == 0x0A || n == 0x0B || n == 0x0C || n == 0x0D || n == 0x20 ||
  n == 0xA0 || n == 0x1680 || (0x2000 ≤ n && n ≤ 0x200A) || n == 0x2028 ||
  n == 0x2029 || n == 0x202F || n == 0x205F || n == 0x3000 || n == 0xFEFF

/-- The method `input.trim()`. -/
def jsTrim (t : String) : String :=
  String.mk ((((t.toList.dropWhile isTrimChar).reverse).dropWhile isTrimChar).reverse)

/-! ## Numbers and indexed access (for `loadGeoJSON`) -/

/-- A value read by an index, `v[i]`: `undefined`, a parsed value, or the one-unit
string read from a string. -/
inductive Operand where
  | undefined
  | value (j : Json)
  | codeUnit

/-- A number computed by `Math.min` or `Math.max` from the modelled conversions. -/
inductive JsNumber where
  | num (q : Rat)
  | nan

/-- The value `[[minLat, minLng], [maxLat, maxLng]]` passed to `setMapBounds` (line 71). -/
structure Bounds where
  minLat : JsNumber
  minLng : JsNumber
  maxLat : JsNumber
  maxLng : JsNumber

/-- The cell `mapBounds`: `null`, an array of bounds, or `unevaluated` after a load
whose calls of `Math.min` and `Math.max` are not modelled (the cell then holds its old
value if a call threw, or bounds that are not computed here). -/
inductive MapBounds where
  | null
  | box (bounds : Bounds)
  | unevaluated

/-- Length of a string in UTF-16 code units. -/
def utf16Length (t : String) : Nat :=
  (t.toList.map (fun c => if c.toNat < 0x10000 then 1 else 2)).sum

/-- Indexed access `v[i]`: it throws on `null`, reads the element of an array, the code
unit of a string, the own property named by the index of an object, and is
`undefined` on a number or a boolean. -/
def getIndex (v : Json) (i : Nat) : Throws Operand :=
  match v with
  | .null => none
  | .arr xs =>
    match xs.get? i with
    | some j => some (Operand.value j)
    | none => some Operand.undefined
  | .str t => some (if i < utf16Length t then Operand.codeUnit else Operand.undefined)
  | .obj kvs =>
    match lookupKey kvs (Nat.repr i) with
    | some j => some (Operand.value j)
    | none => some Operand.undefined
  | _ => some Operand.undefined

/-- Indexed access on a JavaScript value: it throws on `undefined` as on `null`. -/
def getIndexV (v : JsVal) (i : Nat) : Throws Operand :=
  match v with
  | none => none
  | some j => getIndex j i

/-- The conversion `ToNumber` applied by `Math.min` and `Math.max` to an argument, for
`undefined`, `null`, booleans and numbers.  The conversion of a string, an array or an
object is not modelled (`none`): it may give a number, `NaN` or, on an object whose
own `toString` is not callable, throw. -/
def toNumber : Operand → Option JsNumber
  | .undefined => some JsNumber.nan
  | .value .null => some (JsNumber.num 0)
  | .value (.bool b) => some (JsNumber.num (if b then 1 else 0))
  | .value (.num q) => some (JsNumber.num q)
  | .value _ => none
  | .codeUnit => none

/-- The conversion of every argument; `none` when one of them is not modelled. -/
def toNumbers : List Operand → Option (List JsNumber)
  | [] => some []
  | x :: xs =>
    match toNumber x, toNumbers xs with
    | some n, some ns => some (n :: ns)
    | _, _ => none

/-- One step of `Math.min` or `Math.max` with `pick` the minimum or maximum of two
numbers: `NaN` wins. -/
def combineNumbers (pick : Rat → Rat → Rat) : JsNumber → JsNumber → JsNumber
  | .nan, _ => JsNumber.nan
  | _, .nan => JsNumber.nan
  | .num a, .num b => JsNumber.num (pick a b)

/-- A number of arguments that a spread call `f(...xs)` is taken to accept.  The limit
is set by the engine (65536 in JavaScriptCore, more in V8 and SpiderMonkey); a call
with more arguments may throw a `RangeError` and is not modelled. -/
def spreadSafe : Nat := 65535

/-- A call `Math.min(...xs)` or `Math.max(...xs)` for the array `x :: xs` (it is never
called on an empty array, line 68); `none` when the call is not modelled. -/
def mathExtreme (pick : Rat → Rat → Rat) (x : Operand) (xs : List Operand) :
    Option JsNumber :=
  if xs.length + 1 ≤ spreadSafe then
    match toNumber x, toNumbers xs with
    | some n, some ns => some (ns.foldl (combineNumbers pick) n)
    | _, _ => none
  else none

/-- The call `Math.min(...xs)` for the array `x :: xs`. -/
def mathMin (x : Operand) (xs : List Operand) : Option JsNumber :=
  mathExtreme min x xs

/-- The call `Math.max(...xs)` for the array `x :: xs`. -/
def mathMax (x : Operand) (xs : List Operand) : Option JsNumber :=
  mathExtreme max x xs

/-! ## Component state -/

/-- A chat message `{ role, content }`.  The content is whatever value the handler
stored: the input text, a literal, or a field of a response. -/
structure Message where
  role : String
  content : Json

/-- The `useState` cells of `FanshaweNavigator` (App.jsx lines 18-26). -/
structure State where
  messages : List Message
  input : String
  showMap : Bool
  geoJsonData : Json
  mapBounds : MapBounds
  loading : Bool
  routeData : Json

/-- The greeting literal of lines 19 and 244. -/
def greeting : Message :=
  { role := "assistant"
    content := .str "Hello! I\x27m Fanshawe Navigator. How can I help you find your way around campus today?" }

/-- Initial values of the cells (lines 18-26). -/
def initialState : State :=
  { messages := [greeting]
    input := ""
    showMap := false
    geoJsonData := .null
    mapBounds := MapBounds.null
    loading := false
    routeData := .null }

/-- A request of the component, with what it carries. -/
inductive Request where
  | chat (mensagem : String)
  | calcularRota (origem destino : JsVal)
  | geojson
  | predioInfo (ref : Json)

/-- The functional update `setMessages(prev => [...prev, m])`. -/
def appendMessage (s : State) (m : Message) : State :=
  { s with messages := s.messages ++ [m] }

/-! ## `handleSend` (lines 82-149) -/

/-- The `errorResponse` literal of the outer `catch` (lines 141-144). -/
def errorResponse : Message :=
  { role := "assistant"
    content := .str "Sorry, there was an error processing your request. Please try again." }

/-- The literal on the right of `data.resposta || ...` (line 105). -/
def fallbackText : Json := .str "Sorry, I couldn\x27t process that request."

/-- The `userMessage` of line 85. -/
def userMessage (input : String) : Message :=
  { role := "user", content := .str input }

/-- Lines 83-98: the part of `handleSend` that runs when it is called.  `none` is the
early `return` of line 83; otherwise the new state and the chat request. -/
def handleSendCall (s : State) : Option (State × Request) :=
  if jsTrim s.input == "" then none
  else
    some ({ appendMessage s (userMessage s.input) with input := "", loading := true },
          Request.chat s.input)

/-- The outer `catch` and `finally` (lines 139-148). -/
def handleSendCatch (s : State) : State :=
  { appendMessage s errorResponse with loading := false }

/-- The condition of line 110, `data.tipo === 'navegacao' && data.origem && data.destino`,
with the short circuit of `&&`. -/
def routeWanted (data : Json) : Throws Bool :=
  match getProp data "tipo" with
  | none => none
  | some tipo =>
    if strictEq tipo (some (.str "navegacao")) then
      match getProp data "origem" with
      | none => none
      | some origem =>
        if truthy origem then
          match getProp data "destino" with
          | none => none
          | some destino => some (truthy destino)
        else some false
    else some false

/-- Lines 134-148: the test `data.tipo === 'info_predio'` with its empty branch, then
the `finally` block; a throw in the test reaches the outer `catch`. -/
def handleSendTail (data : Json) (s : State) : State :=
  match getProp data "tipo" with
  | some _ => { s with loading := false }
  | none => handleSendCatch s

/-- Lines 100-121 and 133-148: what runs when the chat request settles with `resp`.
The result is the new state and the route request of line 112 when one is sent; when
none is sent the handler has run to its end. -/
def handleSendChatSettled (s : State) (resp : Option Json) : State × Option Request :=
  match resp with
  | none => (handleSendCatch s, none)
  | some data =>
    match getProp data "resposta" with
    | none => (handleSendCatch s, none)
    | some resposta =>
      let s1 := appendMessage s { role := "assistant", content := jsOr resposta fallbackText }
      match routeWanted data with
      | none => (handleSendCatch s1, none)
      | some false => (handleSendTail data s1, none)
      | some true =>
        match getProp data "origem", getProp data "destino" with
        | some origem, some destino => (s1, some (Request.calcularRota origem destino))
        | _, _ => (handleSendTail data s1, none)

/-- Lines 122-148: what runs when the route request settles with `resp`.  `showMap0`
and `data` are the values of `showMap` and `data` held by this call of `handleSend`. -/
def handleSendRouteSettled (showMap0 : Bool) (data : Json) (s : State)
    (resp : Option Json) : State :=
  match resp with
  | some routeResult =>
    handleSendTail data
      { s with routeData := routeResult
               showMap := if !showMap0 then true else s.showMap }
  | none => handleSendTail data s

/-- One run of `handleSend` from state `s` with no other handler running in between:
`chat` and `route` are the outcomes of the two requests (the second is read only when
the route request is sent).  The result is the final state and the requests sent, in
order. -/
def handleSend (s : State) (chat route : Option Json) : State × List Request :=
  match handleSendCall s with
  | none => (s, [])
  | some (s1, req1) =>
    match handleSendChatSettled s1 chat with
    | (s2, none) => (s2, [req1])
    | (s2, some req2) =>
      (handleSendRouteSettled s.showMap (chat.getD .null) s2 route, [req1, req2])

/-! ## Map visibility and the GeoJSON load (lines 41-80, 158-160) -/

/-- The handler `toggleMap` (lines 158-160). -/
def toggleMap (s : State) : State :=
  { s with showMap := !s.showMap }

/-- Body of the effect of lines 42-46: the requests it starts in state `s`. -/
def mapEffect (s : State) : List Request :=
  if s.showMap && !truthy (some s.geoJsonData) then [Request.geojson] else []

/-- The effect with its dependency list `[showMap]`: after a render that moved the
state from `before` to `after` the body runs only when `showMap` differs. -/
def afterRender (before after : State) : List Request :=
  if before.showMap != after.showMap then mapEffect after else []

/-- A callback run over a list, as `filter` does: a throw of the callback ends it. -/
def filterThrows {α : Type} (p : α → Throws Bool) : List α → Throws (List α)
  | [] => some []
  | x :: xs =>
    match p x with
    | none => none
    | some keep =>
      match filterThrows p xs with
      | none => none
      | some rest => some (if keep then x :: rest else rest)

/-- A callback run over a list, as `map` does: a throw of the callback ends it. -/
def mapThrows {α β : Type} (f : α → Throws β) : List α → Throws (List β)
  | [] => some []
  | x :: xs =>
    match f x with
    | none => none
    | some y =>
      match mapThrows f xs with
      | none => none
      | some rest => some (y :: rest)

/-- The callback of `filter` (line 57): `f.geometry && f.geometry.coordinates`. -/
def keepFeature (f : Json) : Throws Bool :=
  match getProp f "geometry" with
  | none => none
  | some geometry =>
    if truthy geometry then
      match getPropV geometry "coordinates" with
      | none => none
      | some coordinates => some (truthy coordinates)
    else some false

/-- The callback `c => [c[1], c[0]]` of line 62. -/
def swapPair (c : Json) : Throws (Operand × Operand) :=
  match getIndex c 1, getIndex c 0 with
  | some c1, some c0 => some (c1, c0)
  | _, _ => none

/-- The callback of `map` (lines 58-65): the pairs `[lat, lng]` of one feature. -/
def featureCoordinates (f : Json) : Throws (List (Operand × Operand)) :=
  match getProp f "geometry" with
  | none => none
  | some geometry =>
    match getPropV geometry "type" with
    | none => none
    | some type =>
      if strictEq type (some (.str "Point")) then
        match getPropV geometry "coordinates" with
        | none => none
        | some coordinates =>
          match getIndexV coordinates 1, getIndexV coordinates 0 with
          | some c1, some c0 => some [(c1, c0)]
          | _, _ => none
      else if strictEq type (some (.str "Polygon")) then
        match getPropV geometry "coordinates" with
        | none => none
        | some coordinates =>
          match getIndexV coordinates 0 with
          | some (Operand.value (.arr ring)) => mapThrows swapPair ring
          | _ => none
      else some []

/-- Lines 56-66: the array `coordinates` built from `data.features`. -/
def collectCoordinates (features : List Json) : Throws (List (Operand × Operand)) :=
  match filterThrows keepFeature features with
  | none => none
  | some kept =>
    match mapThrows featureCoordinates kept with
    | none => none
    | some lists => some lists.flatten

/-- Lines 55-75: the new value of `mapBounds`, or `none` when line 71 is not reached.
Line 71 is reached only when `data.features` is a non-empty array: on a falsy value, a
number or `true` the condition of line 55 is false, and on a string or an object either
the condition is false or `filter` is not a function, which throws like every failing
callback into the `catch` of line 77.  When one of the four calls of lines 72-73 is not
modelled the new value is `unevaluated`. -/
def computeBounds (data : Json) : Option MapBounds :=
  match getProp data "features" with
  | some (some (.arr (f :: fs))) =>
    match collectCoordinates (f :: fs) with
    | some (c :: cs) =>
      match mathMin c.1 (cs.map (fun p => p.1)), mathMin c.2 (cs.map (fun p => p.2)),
            mathMax c.1 (cs.map (fun p => p.1)), mathMax c.2 (cs.map (fun p => p.2)) with
      | some minLat, some minLng, some maxLat, some maxLng =>
        some (MapBounds.box
          { minLat := minLat, minLng := minLng, maxLat := maxLat, maxLng := maxLng })
      | _, _, _, _ => some MapBounds.unevaluated
    | _ => none
  | _ => none

/-- Lines 51-79 of `loadGeoJSON`: what runs when the GeoJSON request settles.  A throw
after line 52 is caught at line 77 and leaves `geoJsonData` set. -/
def loadGeoJSONSettled (s : State) (resp : Option Json) : State :=
  match resp with
  | some data =>
    { s with geoJsonData := data
             mapBounds := match computeBounds data with
                          | some value => value
                          | none => s.mapBounds }
  | none => s

/-! ## New Chat (lines 241-251) -/

/-- The `onClick` handler of the New Chat button. -/
def newChat (s : State) : State :=
  { s with messages := [greeting], routeData := .null }

/-! ## Building click (lines 190-213) -/

/-- Lines 191-199: the request a click on the layer of `feature` starts, if any.  The
handler exists only when `feature.properties` is truthy and the template string of
line 194 does not throw, and it sends only when `props.ref` is truthy. -/
def clickFeature (feature : Json) : Option Request :=
  match getProp feature "properties" with
  | some (some props) =>
    if truthy (some props) then
      match getProp props "ref" with
      | some (some ref) =>
        if truthy (some ref) && !toStringThrows ref then some (Request.predioInfo ref)
        else none
      | _ => none
    else none
  | _ => none

/-- Lines 200-211: what runs when the building-info request settles with `resp`. -/
def predioInfoSettled (s : State) (resp : Option Json) : State :=
  match resp with
  | none => s
  | some data =>
    match getProp data "texto_formatado" with
    | some (some texto) =>
      if truthy (some texto) then appendMessage s { role := "assistant", content := texto }
      else s
    | _ => s

/-- One building click from state `s` with no other handler running in between; `resp`
is the outcome of the request when one is sent. -/
def buildingClick (s : State) (feature : Json) (resp : Option Json) : State × List Request :=
  match clickFeature feature with
  | none => (s, [])
  | some req => (predioInfoSettled s resp, [req])

/-! ## `getFeatureStyle` (lines 162-187) -/

/-- The object returned by `getFeatureStyle`. -/
structure Style where
  color : String
  weight : Nat
  fillOpacity : Rat
  fillColor : String

/-- The call `name?.includes("Fanshawe")`: `undefined` when `name` is `undefined` or
`null`, the substring test on a string, the membership test on an array, and a throw
on any other value (it has no method `includes`). -/
def nameIncludes (name : JsVal) : Throws JsVal :=
  match name with
  | none => some none
  | some .null => some none
  | some (.str t) => some (some (.bool (decide ("Fanshawe".toList <:+: t.toList))))
  | some (.arr xs) =>
    some (some (.bool (xs.any (fun x => strictEq (some x) (some (.str "Fanshawe"))))))
  | some _ => none

/-- Lines 164-165: the value of `isCollege`. -/
def isCollege (feature : Json) : Throws Bool :=
  match getProp feature "properties" with
  | none => none
  | some props =>
    match getPropV props "name" with
    | none => none
    | some name =>
      match nameIncludes name with
      | none => none
      | some inc =>
        if truthy inc then some true
        else
          match getPropV props "amenity" with
          | none => none
          | some amenity => some (strictEq amenity (some (.str "college")))

/-- Lines 168-179: the pair `(fillColor, fillOpacity)` for a given `isCollege`. -/
def featureFill (college : Bool) (feature routeData : Json) : Throws (String × Rat) :=
  let fillColor := if college then "#764ba2" else "#bdc3c7"
  let fillOpacity : Rat := if college then 0.3 else 0.1
  if truthy (some routeData) then
    match getProp feature "properties" with
    | none => none
    | some props =>
      match getPropV props "ref" with
      | none => none
      | some ref =>
        if truthy ref then
          match getProp routeData "origem" with
          | none => none
          | some origem =>
            if strictEq ref origem then some ("#27ae60", 0.7)
            else
              match getProp routeData "destino" with
              | none => none
              | some destino =>
                if strictEq ref destino then some ("#e74c3c", 0.7)
                else some (fillColor, fillOpacity)
        else some (fillColor, fillOpacity)
  else some (fillColor, fillOpacity)

/-- The function `getFeatureStyle` for the current `routeData`. -/
def getFeatureStyle (feature routeData : Json) : Throws Style :=
  match isCollege feature with
  | none => none
  | some college =>
    match featureFill college feature routeData with
    | none => none
    | some fill =>
      some { color := if college then "#667eea" else "#95a5a6"
             weight := if college then 3 else 2
             fillOpacity := fill.2
             fillColor := fill.1 }

/-! ## The component as a machine with requests in flight -/

/-- A request in flight together with what the suspended handler holds: for the two
requests of `handleSend` the `showMap` of its closure, and for the route request also
the chat response `data`. -/
inductive InFlight where
  | chat (mensagem : String) (showMap0 : Bool)
  | calcularRota (origem destino : JsVal) (showMap0 : Bool) (data : Json)
  | geojson
  | predioInfo (ref : Json)

/-- The request an entry stands for. -/
def InFlight.request : InFlight → Request
  | .chat m _ => Request.chat m
  | .calcularRota o d _ _ => Request.calcularRota o d
  | .geojson => Request.geojson
  | .predioInfo r => Request.predioInfo r

/-- Whether the entry belongs to a run of `handleSend`. -/
def InFlight.ofHandleSend : InFlight → Bool
  | .chat _ _ => true
  | .calcularRota _ _ _ _ => true
  | _ => false

/-- The component between two events: its cells and the requests not yet settled, in
the order they were started. -/
structure Sys where
  ui : State
  inFlight : List InFlight

/-- The component after mounting: the effect has run once with `showMap` false. -/
def Sys.initial : Sys :=
  { ui := initialState, inFlight := [] }

/-- What can happen to the component.  `typeInput` is the `onChange` of the text field,
`quickNavigation` and `quickBuildingInfo` the two quick-action buttons, `send` the Send
button or the Enter key, `settle i resp` the settling of the request at position `i`. -/
inductive Event where
  | typeInput (t : String)
  | quickNavigation
  | quickBuildingInfo
  | send
  | toggleMap
  | newChat
  | clickFeature (feature : Json)
  | settle (i : Nat) (resp : Option Json)

/-- Entries for the requests the effect starts after a render. -/
def effectEntries (before after : State) : List InFlight :=
  (afterRender before after).map (fun _ => InFlight.geojson)

/-- Settling of one entry: the new cells and the entries the continuation starts. -/
def settleEntry (s : State) (e : InFlight) (resp : Option Json) : State × List InFlight :=
  match e with
  | .chat _ showMap0 =>
    match handleSendChatSettled s resp with
    | (s1, some (Request.calcularRota o d)) =>
      (s1, [InFlight.calcularRota o d showMap0 (resp.getD .null)])
    | (s1, _) => (s1, [])
  | .calcularRota _ _ showMap0 data =>
    let s1 := handleSendRouteSettled showMap0 data s resp
    (s1, effectEntries s s1)
  | .geojson => (loadGeoJSONSettled s resp, [])
  | .predioInfo _ => (predioInfoSettled s resp, [])

/-- One event of the component; `none` when the event cannot happen in this state.  The
text field and the Send button are disabled while `loading` (lines 337 and 343), and a
building can be clicked only while the map is drawn (lines 353 and 366). -/
def step (sys : Sys) : Event → Option Sys
  | .typeInput t =>
    if sys.ui.loading then none else some { sys with ui := { sys.ui with input := t } }
  | .quickNavigation =>
    some { sys with ui := { sys.ui with input := "How do I get from building A to building B?" } }
  | .quickBuildingInfo =>
    some { sys with ui := { sys.ui with input := "What\x27s in building A?" } }
  | .send =>
    if sys.ui.loading then none
    else
      match handleSendCall sys.ui with
      | none => some sys
      | some (s1, _) =>
        some { ui := s1, inFlight := sys.inFlight ++ [InFlight.chat sys.ui.input sys.ui.showMap] }
  | .toggleMap =>
    let s1 := toggleMap sys.ui
    some { ui := s1, inFlight := sys.inFlight ++ effectEntries sys.ui s1 }
  | .newChat => some { sys with ui := newChat sys.ui }
  | .clickFeature feature =>
    if sys.ui.showMap && truthy (some sys.ui.geoJsonData) then
      match clickFeature feature with
      | some (Request.predioInfo ref) =>
        some { sys with inFlight := sys.inFlight ++ [InFlight.predioInfo ref] }
      | _ => some sys
    else none
  | .settle i resp =>
    match sys.inFlight.get? i with
    | none => none
    | some e =>
      let r := settleEntry sys.ui e resp
      some { ui := r.1, inFlight := sys.inFlight.eraseIdx i ++ r.2 }

/-- Run a list of events in order; `none` as soon as one cannot happen. -/
def run (sys : Sys) : List Event → Option Sys
  | [] => some sys
  | e :: es =>
    match step sys e with
    | none => none
    | some sys1 => run sys1 es

/-- States the component can reach from its initial state. -/
def Reachable (sys : Sys) : Prop :=
  ∃ es : List Event, run Sys.initial es = some sys

/-- The bot message of lines 103-106 for a chat response that is not `null`. -/
def botResponse (data : Json) : Message :=
  { role := "assistant", content := jsOr (field data "resposta") fallbackText }

/-- The state in which `handleSend` waits for the chat response (lines 85-89). -/
def awaitingChat (s : State) : State :=
  { appendMessage s (userMessage s.input) with input := "", loading := true }

/-- A chat request that brings no usable `data`: rejected, or a body that is `null`. -/
def chatFailed (chat : Option Json) : Prop :=
  chat = none ∨ chat = some .null

/-- Whether a request is the route request of line 112. -/
def Request.isRoute : Request → Bool
  | .calcularRota _ _ => true
  | _ => false

/-! ## Sample inputs -/

/-- The initial state after the user typed a question. -/
def askedState : State :=
  { initialState with input := "How do I get from A to B?" }

/-- A chat response of type `navegacao` naming two buildings. -/
def navData : Json :=
  .obj [("resposta", .str "Follow the corridor."), ("tipo", .str "navegacao"),
        ("origem", .str "A"), ("destino", .str "B")]

/-- A route response. -/
def routeAB : Json :=
  .obj [("origem", .str "A"), ("destino", .str "B"), ("path", .arr [])]

/-- A FeatureCollection with one building. -/
def sampleCollection : Json :=
  .obj [("type", .str "FeatureCollection"),
        ("features", .arr [.obj [("type", .str "Feature"),
          ("properties", .obj [("name", .str "Fanshawe College B"), ("ref", .str "B")]),
          ("geometry", .obj [("type", .str "Point"),
            ("coordinates", .arr [.num (-81), .num 43])])]])]

/-- The component with the map open and the collection loaded. -/
def loadedSys : Sys :=
  { ui := loadGeoJSONSettled (toggleMap initialState) (some sampleCollection), inFlight := [] }

/-- The user types a question, sends it and opens the map before the reply arrives. -/
def sendThenOpenMap : List Event :=
  [Event.typeInput "Where is B?", Event.send, Event.toggleMap]

/-- The component after `sendThenOpenMap`. -/
def busySys : Sys :=
  { ui := { initialState with
              messages := [greeting, userMessage "Where is B?"]
              loading := true
              showMap := true }
    inFlight := [InFlight.chat "Where is B?" false, InFlight.geojson] }

/-- The building of `sampleCollection`. -/
def buildingB : Json :=
  .obj [("type", .str "Feature"),
        ("properties", .obj [("name", .str "Fanshawe College B"), ("ref", .str "B")]),
        ("geometry", .obj [("type", .str "Point"),
          ("coordinates", .arr [.num (-81), .num 43])])]

/-- The `properties` of `buildingB`. -/
def buildingProps : Json :=
  .obj [("name", .str "Fanshawe College B"), ("ref", .str "B")]

/-- A chat response of type `info_predio` with the same `resposta` as `navData`. -/
def infoData : Json :=
  .obj [("resposta", .str "Follow the corridor."), ("tipo", .str "info_predio")]

/-- The initial state with an input of white space only. -/
def blankState : State :=
  { initialState with input := " \t " }

/-! ## Runs of whole handlers -/

/-- An action taken as a whole: the text field is set, or a handler runs to its end
with the given outcomes of its requests. -/
inductive Op where
  | setInput (t : String)
  | handleSend (chat route : Option Json)
  | buildingClick (feature : Json) (resp : Option Json)
  | newChat
  | toggleMap
  | loadGeoJSON (resp : Option Json)

/-- The state after one action. -/
def applyOp (s : State) : Op → State
  | .setInput t => { s with input := t }
  | .handleSend chat route => (handleSend s chat route).1
  | .buildingClick feature resp => (buildingClick s feature resp).1
  | .newChat => newChat s
  | .toggleMap => toggleMap s
  | .loadGeoJSON resp => loadGeoJSONSettled s resp

/-- A message role the component renders. -/
def roleOk (m : Message) : Prop :=
  m.role = "user" ∨ m.role = "assistant"

/-- The list starts with the greeting and holds only messages with a known role. -/
def messagesInvariant (ms : List Message) : Prop :=
  ms.head? = some greeting ∧ ∀ m ∈ ms, roleOk m

/-- The list `after` is `before` followed by messages with a known role. -/
def Extends (before after : List Message) : Prop :=
  ∃ extra : List Message, after = before ++ extra ∧ ∀ m ∈ extra, roleOk m

/-- Some whole actions: a question is typed and answered with a route, then New Chat. -/
def sampleOps : List Op :=
  [Op.setInput "How do I get from A to B?", Op.handleSend (some navData) (some routeAB),
   Op.toggleMap, Op.newChat]

/-! ## The college test, in the words of the claim -/

/-- The name contains "Fanshawe": as a substring of a string, or as an element of an
array of names. -/
def containsFanshawe (name : JsVal) : Bool :=
  match name with
  | some (.str t) => decide ("Fanshawe".toList <:+: t.toList)
  | some (.arr xs) => xs.any (fun x => strictEq (some x) (some (.str "Fanshawe")))
  | _ => false

/-- A name that is absent, `null`, a string or an array: the values on which the test
of line 164 does not throw. -/
def nameTestable (name : JsVal) : Bool :=
  match name with
  | none => true
  | some .null => true
  | some (.str _) => true
  | some (.arr _) => true
  | some _ => false

/-- A building whose name does not contain "Fanshawe". -/
def libraryBuilding : Json :=
  .obj [("type", .str "Feature"),
        ("properties", .obj [("name", .str "Library"), ("ref", .str "L")]),
        ("geometry", .obj [("type", .str "Point"),
          ("coordinates", .arr [.num (-81), .num 43])])]

/-- The user opens the map, types a question, sends it and hides the map while the
request is in flight; then the chat reply and the route arrive. -/
def hideMapWhileLoading : List Event :=
  [Event.toggleMap, Event.typeInput "How do I get from A to B?", Event.send,
   Event.toggleMap, Event.settle 1 (some navData), Event.settle 1 (some routeAB)]

/-! ## Vertices of a feature collection, in the words of the claim -/

/-- A position `[lng, lat, ...]` of two or more numbers, swapped to `(lat, lng)`. -/
def positionOf (c : Json) : Option (Rat × Rat) :=
  match c with
  | .arr (.num lng :: .num lat :: _) => some (lat, lng)
  | _ => none

/-- The geometry type and the coordinates of a feature that has a geometry with
coordinates. -/
def geometryWithCoordinates (f : Json) : Option (JsVal × Json) :=
  match field f "geometry" with
  | some g =>
    match field g "coordinates" with
    | some c => if truthy (some g) && truthy (some c) then some (field g "type", c) else none
    | none => none
  | none => none

/-- The vertices a feature contributes: the coordinate of a Point, every vertex of the
first ring of a Polygon, and nothing for any other geometry type or without
coordinates. -/
def verticesOf (f : Json) : List (Rat × Rat) :=
  match geometryWithCoordinates f with
  | some (type, c) =>
    if strictEq type (some (.str "Point")) then (positionOf c).toList
    else if strictEq type (some (.str "Polygon")) then
      match c with
      | .arr (.arr ring :: _) => ring.filterMap positionOf
      | _ => []
    else []
  | none => []

/-- A feature of a well-formed collection: not `null`, the coordinates of a Point are a
position, and the coordinates of a Polygon start with a ring of positions. -/
def wellFormedFeature (f : Json) : Bool :=
  match f with
  | .null => false
  | _ =>
    match geometryWithCoordinates f with
    | some (type, c) =>
      if strictEq type (some (.str "Point")) then (positionOf c).isSome
      else if strictEq type (some (.str "Polygon")) then
        match c with
        | .arr (.arr ring :: _) => ring.all (fun v => (positionOf v).isSome)
        | _ => false
      else true
    | none => true

/-- The pair `[lat, lng]` of numbers as it stands in the array `coordinates`. -/
def toPair (v : Rat × Rat) : Operand × Operand :=
  (Operand.value (.num v.1), Operand.value (.num v.2))

/-- A collection with a Point, a Polygon, a LineString and a feature without geometry. -/
def campusCollection : Json :=
  .obj [("type", .str "FeatureCollection"),
        ("features", .arr [
          .obj [("properties", .obj [("ref", .str "A")]),
                ("geometry", .obj [("type", .str "Point"),
                  ("coordinates", .arr [.num (-81), .num 43])])],
          .obj [("properties", .obj [("ref", .str "B")]),
                ("geometry", .obj [("type", .str "Polygon"),
                  ("coordinates", .arr [.arr [.arr [.num (-82), .num 42],
                                              .arr [.num (-80), .num 42],
                                              .arr [.num (-80), .num 44],
                                              .arr [.num (-82), .num 42]]])])],
          .obj [("geometry", .obj [("type", .str "LineString"),
                  ("coordinates", .arr [.arr [.num 0, .num 0], .arr [.num 1, .num 1]])])],
          .obj [("properties", .obj [])]])]

/-- A Point with a position. -/
def pointA : Json :=
  .obj [("properties", .obj [("ref", .str "A")]),
        ("geometry", .obj [("type", .str "Point"),
          ("coordinates", .arr [.num (-81), .num 43])])]

/-- The Point `pointA` beside a Polygon whose `coordinates` is the empty array. -/
def emptyPolygonCollection : Json :=
  .obj [("type", .str "FeatureCollection"),
        ("features", .arr [pointA,
          .obj [("properties", .obj [("ref", .str "B")]),
                ("geometry", .obj [("type", .str "Polygon"), ("coordinates", .arr [])])]])]

/-- The Point `pointA` beside a Point whose `coordinates` is the empty array. -/
def emptyPointCollection : Json :=
  .obj [("type", .str "FeatureCollection"),
        ("features", .arr [pointA,
          .obj [("properties", .obj [("ref", .str "B")]),
                ("geometry", .obj [("type", .str "Point"), ("coordinates", .arr [])])]])]

/-- The features of `campusCollection`. -/
def campusFeatures : List Json :=
  match field campusCollection "features" with
  | some (.arr fs) => fs
  | _ => []

/-! ## Invariant of the machine -/

/-- While `loading` is set exactly one request of `handleSend` is in flight, and none
otherwise. -/
def sendInvariant (sys : Sys) : Prop :=
  sys.inFlight.countP InFlight.ofHandleSend = if sys.ui.loading then 1 else 0

/-! ## Facts about the JavaScript operations -/

theorem getProp_eq_none_iff (v : Json) (k : String) : getProp v k = none ↔ v = .null := by
  cases v <;> simp [getProp]

theorem getProp_isSome_of_ne_null {v : Json} (h : v ≠ .null) (k : String) :
    ∃ x, getProp v k = some x := by
  cases v <;> simp [getProp] at h ⊢

theorem routeWanted_isSome_of_ne_null {data : Json} (h : data ≠ .null) :
    ∃ b, routeWanted data = some b := by
  cases data <;> first
    | exact absurd rfl h
    | (simp only [routeWanted, getProp]; repeat' split) <;> exact ⟨_, rfl⟩

theorem handleSendTail_of_ne_null {data : Json} (h : data ≠ .null) (s : State) :
    handleSendTail data s = { s with loading := false } := by
  obtain ⟨x, hx⟩ := getProp_isSome_of_ne_null h "tipo"
  simp [handleSendTail, hx]

theorem getProp_of_ne_null {v : Json} (h : v ≠ .null) (k : String) :
    getProp v k = some (field v k) := by
  obtain ⟨x, hx⟩ := getProp_isSome_of_ne_null h k
  simp [field, hx]

theorem handleSendChatSettled_none (s : State) :
    handleSendChatSettled s none = (handleSendCatch s, none) := rfl

theorem handleSendChatSettled_null (s : State) :
    handleSendChatSettled s (some .null) = (handleSendCatch s, none) := rfl

theorem handleSendChatSettled_of_ne_null {data : Json} (h : data ≠ .null) (s : State) :
    handleSendChatSettled s (some data) =
      if routeWanted data = some true then
        (appendMessage s (botResponse data),
          some (Request.calcularRota (field data "origem") (field data "destino")))
      else
        ({ appendMessage s (botResponse data) with loading := false }, none) := by
  obtain ⟨b, hb⟩ := routeWanted_isSome_of_ne_null h
  simp only [handleSendChatSettled, getProp_of_ne_null h, hb, botResponse]
  cases b <;> simp [handleSendTail_of_ne_null h]

theorem handleSendRouteSettled_of_ne_null {data : Json} (h : data ≠ .null) (showMap0 : Bool)
    (s : State) (resp : Option Json) :
    handleSendRouteSettled showMap0 data s resp =
      match resp with
      | some routeResult =>
        { s with routeData := routeResult
                 showMap := if !showMap0 then true else s.showMap
                 loading := false }
      | none => { s with loading := false } := by
  cases resp <;> simp [handleSendRouteSettled, handleSendTail_of_ne_null h]

theorem handleSendCall_of_not_blank {s : State} (h : jsTrim s.input ≠ "") :
    handleSendCall s = some (awaitingChat s, Request.chat s.input) := by
  simp [handleSendCall, awaitingChat, h]

theorem handleSend_blank {s : State} (h : jsTrim s.input = "") (chat route : Option Json) :
    handleSend s chat route = (s, []) := by
  simp [handleSend, handleSendCall, h]

theorem handleSend_chatFailed {s : State} (h : jsTrim s.input ≠ "") {chat : Option Json}
    (hc : chatFailed chat) (route : Option Json) :
    handleSend s chat route = (handleSendCatch (awaitingChat s), [Request.chat s.input]) := by
  rcases hc with rfl | rfl <;>
    simp [handleSend, handleSendCall_of_not_blank h, handleSendChatSettled]
  simp [getProp]

theorem handleSend_noRoute {s : State} (h : jsTrim s.input ≠ "") {data : Json}
    (hd : data ≠ .null) (hr : routeWanted data ≠ some true) (route : Option Json) :
    handleSend s (some data) route =
      ({ appendMessage (awaitingChat s) (botResponse data) with loading := false },
        [Request.chat s.input]) := by
  simp [handleSend, handleSendCall_of_not_blank h, handleSendChatSettled_of_ne_null hd, hr]

theorem handleSend_route {s : State} (h : jsTrim s.input ≠ "") {data : Json}
    (hr : routeWanted data = some true) (route : Option Json) :
    handleSend s (some data) route =
      (match route with
        | some routeResult =>
          { appendMessage (awaitingChat s) (botResponse data) with
              routeData := routeResult
              showMap := if !s.showMap then true else s.showMap
              loading := false }
        | none => { appendMessage (awaitingChat s) (botResponse data) with loading := false },
        [Request.chat s.input,
          Request.calcularRota (field data "origem") (field data "destino")]) := by
  have hd : data ≠ .null := by
    rintro rfl
    simp [routeWanted, getProp] at hr
  simp only [handleSend, handleSendCall_of_not_blank h, handleSendChatSettled_of_ne_null hd, hr,
    if_true, Option.getD_some, handleSendRouteSettled_of_ne_null hd]
  cases route <;> simp [awaitingChat, appendMessage]

/-! ## The message list -/

/-- C1: from any message list and any input text that is not blank after trimming, one
run of `handleSend`, whatever the outcomes of the chat and route requests, leaves the
message list equal to the old list followed by the user message holding the untrimmed
input and then exactly one message of role `assistant`. -/
theorem handleSend_appends_user_then_assistant (s : State) (chat route : Option Json)
    (h : jsTrim s.input ≠ "") :
    ∃ a : Message, a.role = "assistant" ∧
      (handleSend s chat route).1.messages =
        s.messages ++ [{ role := "user", content := .str s.input }, a] := by
  by_cases hc : chatFailed chat
  · refine ⟨errorResponse, rfl, ?_⟩
    simp [handleSend_chatFailed h hc, handleSendCatch, awaitingChat, appendMessage, userMessage]
  · obtain ⟨data, rfl⟩ : ∃ data, chat = some data := by
      cases chat with
      | none => exact absurd (Or.inl rfl) hc
      | some data => exact ⟨data, rfl⟩
    have hd : data ≠ .null := fun hn => hc (Or.inr (by rw [hn]))
    refine ⟨botResponse data, rfl, ?_⟩
    by_cases hr : routeWanted data = some true
    · rw [handleSend_route h hr]
      cases route <;> simp [awaitingChat, appendMessage, userMessage]
    · simp [handleSend_noRoute h hd hr, awaitingChat, appendMessage, userMessage]

theorem handleSend_appends_user_then_assistant_witness :
    jsTrim askedState.input ≠ "" ∧
    ∃ a : Message, a.role = "assistant" ∧
      (handleSend askedState (some navData) (some routeAB)).1.messages =
        askedState.messages ++
          [{ role := "user", content := .str askedState.input }, a] :=
  ⟨by decide, handleSend_appends_user_then_assistant askedState (some navData) (some routeAB)
    (by decide)⟩

/-- C2: from every state the New Chat handler sets the message list to the one-element
list holding the assistant greeting, which is the initial message list, and sets
`routeData` to `null`. -/
theorem newChat_resets (s : State) :
    (newChat s).messages = [greeting] ∧ greeting.role = "assistant" ∧
      (newChat s).messages = initialState.messages ∧ (newChat s).routeData = .null :=
  ⟨rfl, rfl, rfl, rfl⟩

/-! ## Failed requests -/

theorem ne_append_singleton {α : Type} (l : List α) (a : α) : l ≠ l ++ [a] := by
  intro h
  have := congrArg List.length h
  simp at this

/-- C3, as stated, fails: when the route request, the GeoJSON request or the
building-info request is rejected, no message is appended to the message list. -/
theorem failure_without_apology :
    (¬ ∃ a : Message,
        (handleSendRouteSettled askedState.showMap navData
            (handleSendChatSettled (awaitingChat askedState) (some navData)).1 none).messages =
          (handleSendChatSettled (awaitingChat askedState) (some navData)).1.messages ++ [a]) ∧
    (¬ ∃ a : Message,
        (loadGeoJSONSettled initialState none).messages = initialState.messages ++ [a]) ∧
    (¬ ∃ a : Message,
        (predioInfoSettled initialState none).messages = initialState.messages ++ [a]) := by
  refine ⟨?_, ?_, ?_⟩
  · rintro ⟨a, h⟩
    have h1 : (handleSendRouteSettled askedState.showMap navData
        (handleSendChatSettled (awaitingChat askedState) (some navData)).1 none).messages =
        (handleSendChatSettled (awaitingChat askedState) (some navData)).1.messages := rfl
    exact ne_append_singleton _ a (h1.symm.trans h)
  · rintro ⟨a, h⟩
    exact ne_append_singleton _ a h
  · rintro ⟨a, h⟩
    exact ne_append_singleton _ a h

/-- C3, amended: every failed request leaves the handler with a state (the failure is
caught).  A failed chat request appends the apology message of role `assistant`; a
failed route request, GeoJSON request or building-info request leaves the message list
unchanged. -/
theorem failure_handling (s : State) (showMap0 : Bool) (data : Json)
    (hr : routeWanted data = some true) :
    (handleSendChatSettled s none).1.messages = s.messages ++ [errorResponse] ∧
    errorResponse.role = "assistant" ∧
    errorResponse.content =
      .str "Sorry, there was an error processing your request. Please try again." ∧
    (handleSendChatSettled s none).2 = none ∧
    (handleSendRouteSettled showMap0 data s none).messages = s.messages ∧
    loadGeoJSONSettled s none = s ∧
    predioInfoSettled s none = s := by
  have hd : data ≠ .null := by
    rintro rfl
    simp [routeWanted, getProp] at hr
  refine ⟨rfl, rfl, rfl, rfl, ?_, rfl, rfl⟩
  rw [handleSendRouteSettled_of_ne_null hd]

theorem failure_handling_witness :
    routeWanted navData = some true ∧
    ((handleSendChatSettled askedState none).1.messages =
        askedState.messages ++ [errorResponse] ∧
    errorResponse.role = "assistant" ∧
    errorResponse.content =
      .str "Sorry, there was an error processing your request. Please try again." ∧
    (handleSendChatSettled askedState none).2 = none ∧
    (handleSendRouteSettled false navData askedState none).messages = askedState.messages ∧
    loadGeoJSONSettled askedState none = askedState ∧
    predioInfoSettled askedState none = askedState) :=
  ⟨by decide, failure_handling askedState false navData (by decide)⟩

/-! ## Append-only message list -/

theorem handleSendCatch_messages (s : State) :
    (handleSendCatch s).messages = s.messages ++ [errorResponse] := rfl

theorem handleSendTail_keeps_messages (data : Json) (s : State) :
    s.messages <+: (handleSendTail data s).messages := by
  unfold handleSendTail
  split
  · exact List.prefix_refl _
  · exact List.prefix_append _ _

theorem handleSendChatSettled_keeps_messages (s : State) (resp : Option Json) :
    s.messages <+: (handleSendChatSettled s resp).1.messages := by
  cases resp with
  | none => exact List.prefix_append _ _
  | some data =>
    by_cases hd : data = .null
    · subst hd
      exact List.prefix_append _ _
    · rw [handleSendChatSettled_of_ne_null hd]
      split <;> exact List.prefix_append _ _

theorem handleSendRouteSettled_keeps_messages (showMap0 : Bool) (data : Json) (s : State)
    (resp : Option Json) :
    s.messages <+: (handleSendRouteSettled showMap0 data s resp).messages := by
  cases resp with
  | none => exact handleSendTail_keeps_messages data s
  | some r =>
    exact handleSendTail_keeps_messages data
      { s with routeData := r, showMap := if !showMap0 then true else s.showMap }

theorem predioInfoSettled_keeps_messages (s : State) (resp : Option Json) :
    s.messages <+: (predioInfoSettled s resp).messages := by
  unfold predioInfoSettled
  repeat' split
  all_goals first
    | exact List.prefix_refl _
    | exact List.prefix_append _ _

theorem handleSendCall_keeps_messages {s s1 : State} {req : Request}
    (h : handleSendCall s = some (s1, req)) : s.messages <+: s1.messages := by
  unfold handleSendCall at h
  split at h
  · exact absurd h (by simp)
  · simp only [Option.some.injEq, Prod.mk.injEq] at h
    rw [← h.1]
    exact List.prefix_append _ _

theorem handleSend_keeps_messages (s : State) (chat route : Option Json) :
    s.messages <+: (handleSend s chat route).1.messages := by
  cases hcall : handleSendCall s with
  | none => simp [handleSend, hcall]
  | some p =>
    obtain ⟨s1, req1⟩ := p
    have h1 := handleSendCall_keeps_messages hcall
    have h2 := handleSendChatSettled_keeps_messages s1 chat
    cases hchat : handleSendChatSettled s1 chat with
    | mk s2 r =>
      rw [hchat] at h2
      cases r with
      | none =>
        simp only [handleSend, hcall, hchat]
        exact h1.trans h2
      | some req2 =>
        simp only [handleSend, hcall, hchat]
        exact (h1.trans h2).trans (handleSendRouteSettled_keeps_messages _ _ _ _)

/-- C4: every operation other than New Chat keeps the message list as a prefix of the
new one: a run of `handleSend` and a building click in every outcome, `toggleMap`, and
`loadGeoJSON` in every outcome. -/
theorem messages_append_only (s : State) :
    (∀ chat route : Option Json, s.messages <+: (handleSend s chat route).1.messages) ∧
    (∀ (feature : Json) (resp : Option Json),
        s.messages <+: (buildingClick s feature resp).1.messages) ∧
    s.messages <+: (toggleMap s).messages ∧
    (∀ resp : Option Json, s.messages <+: (loadGeoJSONSettled s resp).messages) := by
  refine ⟨handleSend_keeps_messages s, ?_, List.prefix_refl _, ?_⟩
  · intro feature resp
    unfold buildingClick
    split
    · exact List.prefix_refl _
    · exact predioInfoSettled_keeps_messages s resp
  · intro resp
    cases resp <;> exact List.prefix_refl _

/-! ## The route request and its result -/

theorem routeWanted_ne_null {data : Json} (hr : routeWanted data = some true) :
    data ≠ .null := by
  rintro rfl
  simp [routeWanted, getProp] at hr

theorem routeWanted_eq_of_ne_null {data : Json} (hd : data ≠ .null) :
    routeWanted data =
      some (strictEq (field data "tipo") (some (.str "navegacao")) &&
        truthy (field data "origem") && truthy (field data "destino")) := by
  simp only [routeWanted, getProp_of_ne_null hd]
  by_cases h1 : strictEq (field data "tipo") (some (.str "navegacao")) = true
  · by_cases h2 : truthy (field data "origem") = true
    · simp [h1, h2]
    · simp [h1, h2]
  · simp [h1]

theorem routeWanted_iff (data : Json) :
    routeWanted data = some true ↔
      (strictEq (field data "tipo") (some (.str "navegacao")) &&
        truthy (field data "origem") && truthy (field data "destino")) = true := by
  by_cases hd : data = .null
  · subst hd
    simp [routeWanted, getProp, field, strictEq]
  · rw [routeWanted_eq_of_ne_null hd]
    simp

/-- C5: whatever `routeData` held before, after a run of `handleSend` whose route
request settles with the result `r`, `routeData` is `r` itself; the same holds for the
continuation of the route request taken alone, in any state. -/
theorem route_result_replaces_routeData (s : State) (data r : Json)
    (h : jsTrim s.input ≠ "") (hr : routeWanted data = some true) :
    (handleSend s (some data) (some r)).1.routeData = r ∧
    ∀ (showMap0 : Bool) (s2 : State),
      (handleSendRouteSettled showMap0 data s2 (some r)).routeData = r := by
  constructor
  · rw [handleSend_route h hr]
  · intro showMap0 s2
    rw [handleSendRouteSettled_of_ne_null (routeWanted_ne_null hr)]

theorem route_result_replaces_routeData_witness :
    jsTrim askedState.input ≠ "" ∧ routeWanted navData = some true ∧
    (handleSend askedState (some navData) (some routeAB)).1.routeData = routeAB ∧
    (handleSendRouteSettled true navData busySys.ui (some routeAB)).routeData = routeAB :=
  ⟨by decide, by decide,
    (route_result_replaces_routeData askedState navData routeAB (by decide) (by decide)).1,
    (route_result_replaces_routeData askedState navData routeAB (by decide) (by decide)).2
      true busySys.ui⟩

/-- C6: for every chat response `d` the route request is sent exactly when
`d.tipo === "navegacao"` and `d.origem` and `d.destino` are both truthy (present and
not empty), it is sent after the chat request, and it carries `d.origem` and
`d.destino`. -/
theorem route_request_condition (s : State) (d : Json) (route : Option Json)
    (h : jsTrim s.input ≠ "") :
    (handleSend s (some d) route).2 =
      if (strictEq (field d "tipo") (some (.str "navegacao")) &&
          truthy (field d "origem") && truthy (field d "destino")) = true then
        [Request.chat s.input, Request.calcularRota (field d "origem") (field d "destino")]
      else [Request.chat s.input] := by
  by_cases hr : routeWanted d = some true
  · rw [handleSend_route h hr, if_pos ((routeWanted_iff d).1 hr)]
  · rw [if_neg (fun hc => hr ((routeWanted_iff d).2 hc))]
    by_cases hd : d = .null
    · rw [handleSend_chatFailed h (Or.inr (by rw [hd]))]
    · rw [handleSend_noRoute h hd hr]

theorem route_request_condition_witness :
    jsTrim askedState.input ≠ "" ∧
    (handleSend askedState (some navData) none).2 =
      if (strictEq (field navData "tipo") (some (.str "navegacao")) &&
          truthy (field navData "origem") && truthy (field navData "destino")) = true then
        [Request.chat askedState.input,
          Request.calcularRota (field navData "origem") (field navData "destino")]
      else [Request.chat askedState.input] :=
  ⟨by decide, route_request_condition askedState navData none (by decide)⟩

/-- For a run of `handleSend` with no other handler between its awaits: when the
route request was sent and settled with a result the run ends with the map shown,
whatever `showMap` was before, and every other run (blank input, failed chat request,
reply without route, failed route request) leaves `showMap` as it was. -/
theorem handleSend_showMap (s : State) (chat route : Option Json) :
    (handleSend s chat route).1.showMap =
      if ((handleSend s chat route).2.any Request.isRoute && route.isSome) = true then true
      else s.showMap := by
  by_cases h : jsTrim s.input = ""
  · simp [handleSend_blank h]
  · by_cases hc : chatFailed chat
    · simp [handleSend_chatFailed h hc, Request.isRoute, handleSendCatch, awaitingChat,
        appendMessage]
    · obtain ⟨data, rfl⟩ : ∃ data, chat = some data := by
        cases chat with
        | none => exact absurd (Or.inl rfl) hc
        | some data => exact ⟨data, rfl⟩
      have hd : data ≠ .null := fun hn => hc (Or.inr (by rw [hn]))
      by_cases hr : routeWanted data = some true
      · rw [handleSend_route h hr]
        cases route with
        | none => simp [awaitingChat, appendMessage]
        | some r => cases hs : s.showMap <;> simp [Request.isRoute, hs]
      · simp [handleSend_noRoute h hd hr, Request.isRoute, awaitingChat, appendMessage]

/-- C7 fails on the code: line 126 tests the `showMap` that `handleSend` captured when
it was called.  When the user opens the map, sends a question and hides the map while
the request is in flight, the route is calculated (`routeData` is set, `loading` is
cleared) and the map stays hidden; the continuation of the route request alone, with
the captured value true and the cell false, leaves the cell false. -/
theorem route_success_leaves_map_hidden :
    (run Sys.initial hideMapWhileLoading).map (fun sys => (sys.ui.showMap, sys.ui.loading)) =
      some (false, false) ∧
    (run Sys.initial hideMapWhileLoading).map (fun sys => sys.ui.routeData) = some routeAB ∧
    (handleSendRouteSettled true navData { initialState with showMap := false }
      (some routeAB)).showMap = false :=
  ⟨rfl, rfl, rfl⟩

/-! ## The GeoJSON load -/

theorem mapEffect_of_truthy {s : State} (h : truthy (some s.geoJsonData) = true) :
    mapEffect s = [] := by
  simp [mapEffect, h]

theorem effectEntries_of_truthy (before : State) {after : State}
    (h : truthy (some after.geoJsonData) = true) : effectEntries before after = [] := by
  unfold effectEntries afterRender
  split <;> simp [mapEffect_of_truthy h]

theorem step_toggleMap_of_truthy {sys : Sys} (h : truthy (some sys.ui.geoJsonData) = true) :
    step sys Event.toggleMap = some { ui := toggleMap sys.ui, inFlight := sys.inFlight } := by
  have h1 : truthy (some (toggleMap sys.ui).geoJsonData) = true := h
  simp [step, effectEntries_of_truthy sys.ui h1]

theorem run_toggles_of_truthy (n : Nat) :
    ∀ sys : Sys, truthy (some sys.ui.geoJsonData) = true →
      ∃ sys2 : Sys, run sys (List.replicate n Event.toggleMap) = some sys2 ∧
        sys2.inFlight = sys.inFlight ∧ sys2.ui.geoJsonData = sys.ui.geoJsonData := by
  induction n with
  | zero => exact fun sys _ => ⟨sys, rfl, rfl, rfl⟩
  | succ n ih =>
    intro sys h
    obtain ⟨sys2, h1, h2, h3⟩ :=
      ih { ui := toggleMap sys.ui, inFlight := sys.inFlight } h
    refine ⟨sys2, ?_, h2, h3⟩
    simp only [List.replicate_succ, run, step_toggleMap_of_truthy h]
    exact h1

/-- C8: the effect on `showMap` starts the GeoJSON request exactly when `showMap` went
from false to true in a render where `geoJsonData` is still falsy (`null` until a load
stored a collection); so in a state where a load has stored a truthy `geoJsonData`, any
number of `toggleMap` actions can be run, starts no request and leaves `geoJsonData`
as it is. -/
theorem geojson_fetched_once (sys : Sys) (n : Nat)
    (h : truthy (some sys.ui.geoJsonData) = true) :
    (∀ before after : State,
      afterRender before after =
        if (!before.showMap && after.showMap && !truthy (some after.geoJsonData)) = true
        then [Request.geojson] else []) ∧
    (step sys Event.toggleMap = some { ui := toggleMap sys.ui, inFlight := sys.inFlight }) ∧
    ∃ sys2 : Sys, run sys (List.replicate n Event.toggleMap) = some sys2 ∧
      sys2.inFlight = sys.inFlight ∧ sys2.ui.geoJsonData = sys.ui.geoJsonData := by
  refine ⟨?_, step_toggleMap_of_truthy h, run_toggles_of_truthy n sys h⟩
  intro before after
  unfold afterRender mapEffect
  cases before.showMap <;> cases after.showMap <;>
    cases truthy (some after.geoJsonData) <;> rfl

theorem loadedSys_reachable : Reachable loadedSys :=
  ⟨[Event.toggleMap, Event.settle 0 (some sampleCollection)], rfl⟩

theorem geojson_fetched_once_witness :
    truthy (some loadedSys.ui.geoJsonData) = true ∧
    (step loadedSys Event.toggleMap =
        some { ui := toggleMap loadedSys.ui, inFlight := loadedSys.inFlight }) ∧
    ∃ sys2 : Sys, run loadedSys (List.replicate 3 Event.toggleMap) = some sys2 ∧
      sys2.inFlight = loadedSys.inFlight ∧ sys2.ui.geoJsonData = loadedSys.ui.geoJsonData :=
  ⟨by decide, (geojson_fetched_once loadedSys 3 (by decide)).2⟩

/-! ## Requests in flight -/

theorem countP_eraseIdx_add {α : Type} (p : α → Bool) :
    ∀ (l : List α) (i : Nat) (e : α), l.get? i = some e →
      (l.eraseIdx i).countP p + (if p e then 1 else 0) = l.countP p := by
  intro l
  induction l with
  | nil => intro i e h; simp at h
  | cons a l ih =>
    intro i e h
    cases i with
    | zero =>
      simp only [List.get?_cons_zero, Option.some.injEq] at h
      subst h
      simp [List.countP_cons]
    | succ i =>
      simp only [List.get?_cons_succ] at h
      have := ih i e h
      simp only [List.eraseIdx_cons_succ, List.countP_cons]
      omega

theorem handleSendTail_loading (data : Json) (s : State) :
    (handleSendTail data s).loading = false := by
  unfold handleSendTail
  split <;> rfl

theorem handleSendRouteSettled_loading (showMap0 : Bool) (data : Json) (s : State)
    (resp : Option Json) : (handleSendRouteSettled showMap0 data s resp).loading = false := by
  cases resp <;> exact handleSendTail_loading _ _

theorem handleSendChatSettled_loading (s : State) (resp : Option Json) :
    ((handleSendChatSettled s resp).2 = none ∧
        (handleSendChatSettled s resp).1.loading = false) ∨
    (∃ o d, (handleSendChatSettled s resp).2 = some (Request.calcularRota o d) ∧
        (handleSendChatSettled s resp).1.loading = s.loading ∧ resp ≠ none) := by
  cases resp with
  | none => exact Or.inl ⟨rfl, rfl⟩
  | some data =>
    by_cases hd : data = .null
    · subst hd
      exact Or.inl ⟨rfl, rfl⟩
    · rw [handleSendChatSettled_of_ne_null hd]
      split
      · exact Or.inr ⟨_, _, rfl, rfl, by simp⟩
      · exact Or.inl ⟨rfl, rfl⟩

theorem countP_effectEntries (before after : State) :
    (effectEntries before after).countP InFlight.ofHandleSend = 0 := by
  unfold effectEntries
  rw [List.countP_eq_zero]
  intro e he
  simp only [List.mem_map] at he
  obtain ⟨_, _, rfl⟩ := he
  simp [InFlight.ofHandleSend]

theorem predioInfoSettled_loading (s : State) (resp : Option Json) :
    (predioInfoSettled s resp).loading = s.loading := by
  unfold predioInfoSettled appendMessage
  repeat' split
  all_goals rfl

theorem settleEntry_chat (s : State) (m : String) (sm : Bool) (resp : Option Json) :
    (settleEntry s (InFlight.chat m sm) resp =
        ((handleSendChatSettled s resp).1, []) ∧
      (handleSendChatSettled s resp).1.loading = false) ∨
    (∃ o d, settleEntry s (InFlight.chat m sm) resp =
        ((handleSendChatSettled s resp).1,
          [InFlight.calcularRota o d sm (resp.getD .null)]) ∧
      (handleSendChatSettled s resp).1.loading = s.loading ∧ resp ≠ none) := by
  rcases handleSendChatSettled_loading s resp with ⟨h1, h2⟩ | ⟨o, d, h1, h2, h3⟩
  · left
    refine ⟨?_, h2⟩
    unfold settleEntry
    cases hc : handleSendChatSettled s resp with
    | mk s1 r =>
      rw [hc] at h1
      simp only at h1
      subst h1
      rfl
  · right
    refine ⟨o, d, ?_, h2, h3⟩
    unfold settleEntry
    cases hc : handleSendChatSettled s resp with
    | mk s1 r =>
      rw [hc] at h1
      simp only at h1
      subst h1
      rfl

theorem settleEntry_ofHandleSend (s : State) (e : InFlight) (resp : Option Json)
    (he : e.ofHandleSend = true) (hl : s.loading = true) :
    (settleEntry s e resp).2.countP InFlight.ofHandleSend =
      if (settleEntry s e resp).1.loading then 1 else 0 := by
  cases e with
  | chat m sm =>
    rcases settleEntry_chat s m sm resp with ⟨h1, h2⟩ | ⟨o, d, h1, h2, _⟩
    · simp [h1, h2]
    · simp [h1, h2, hl, InFlight.ofHandleSend]
  | calcularRota o d sm data =>
    simp [settleEntry, handleSendRouteSettled_loading, countP_effectEntries]
  | geojson => simp [InFlight.ofHandleSend] at he
  | predioInfo r => simp [InFlight.ofHandleSend] at he

theorem settleEntry_other (s : State) (e : InFlight) (resp : Option Json)
    (he : e.ofHandleSend = false) :
    (settleEntry s e resp).2.countP InFlight.ofHandleSend = 0 ∧
      (settleEntry s e resp).1.loading = s.loading := by
  cases e with
  | chat m sm => simp [InFlight.ofHandleSend] at he
  | calcularRota o d sm data => simp [InFlight.ofHandleSend] at he
  | geojson => cases resp <;> simp [settleEntry, loadGeoJSONSettled]
  | predioInfo r => simp [settleEntry, predioInfoSettled_loading]

theorem step_sendInvariant {sys sys1 : Sys} (e : Event) (hinv : sendInvariant sys)
    (hstep : step sys e = some sys1) : sendInvariant sys1 := by
  unfold sendInvariant at hinv ⊢
  cases e with
  | typeInput t =>
    simp only [step] at hstep
    split at hstep
    · exact absurd hstep (by simp)
    · simp only [Option.some.injEq] at hstep
      subst hstep
      exact hinv
  | quickNavigation =>
    simp only [step, Option.some.injEq] at hstep
    subst hstep
    exact hinv
  | quickBuildingInfo =>
    simp only [step, Option.some.injEq] at hstep
    subst hstep
    exact hinv
  | send =>
    simp only [step] at hstep
    split at hstep
    · exact absurd hstep (by simp)
    · rename_i hl
      split at hstep
      · simp only [Option.some.injEq] at hstep
        subst hstep
        exact hinv
      · rename_i s1 req hcall
        simp only [Option.some.injEq] at hstep
        subst hstep
        have hs1 : s1.loading = true := by
          unfold handleSendCall at hcall
          split at hcall
          · exact absurd hcall (by simp)
          · simp only [Option.some.injEq, Prod.mk.injEq] at hcall
            rw [← hcall.1]
        simp only [Bool.not_eq_true] at hl
        rw [hl] at hinv
        simp [List.countP_append, hinv, hs1, InFlight.ofHandleSend]
  | toggleMap =>
    simp only [step, Option.some.injEq] at hstep
    subst hstep
    simp only [List.countP_append, countP_effectEntries, Nat.add_zero]
    exact hinv
  | newChat =>
    simp only [step, Option.some.injEq] at hstep
    subst hstep
    exact hinv
  | clickFeature feature =>
    simp only [step] at hstep
    split at hstep
    · split at hstep
      · simp only [Option.some.injEq] at hstep
        subst hstep
        simp only [List.countP_append]
        simpa [InFlight.ofHandleSend] using hinv
      · simp only [Option.some.injEq] at hstep
        subst hstep
        exact hinv
    · exact absurd hstep (by simp)
  | settle i resp =>
    simp only [step] at hstep
    split at hstep
    · exact absurd hstep (by simp)
    · rename_i en hget
      simp only [Option.some.injEq] at hstep
      subst hstep
      have hcount := countP_eraseIdx_add InFlight.ofHandleSend sys.inFlight i en hget
      simp only [List.countP_append]
      cases he : en.ofHandleSend with
      | false =>
        obtain ⟨h1, h2⟩ := settleEntry_other sys.ui en resp he
        rw [h1, h2]
        simp only [he] at hcount
        simp only [Bool.false_eq_true, if_false, Nat.add_zero] at hcount
        omega
      | true =>
        simp only [he, if_true] at hcount
        have hl : sys.ui.loading = true := by
          cases hl : sys.ui.loading with
          | true => rfl
          | false =>
            rw [hl] at hinv
            simp only [Bool.false_eq_true, if_false] at hinv
            omega
        rw [hl] at hinv
        simp only [if_true] at hinv
        rw [settleEntry_ofHandleSend sys.ui en resp he hl]
        have : (sys.inFlight.eraseIdx i).countP InFlight.ofHandleSend = 0 := by omega
        rw [this, Nat.zero_add]

theorem run_sendInvariant (es : List Event) :
    ∀ {sys sys1 : Sys}, sendInvariant sys → run sys es = some sys1 → sendInvariant sys1 := by
  induction es with
  | nil =>
    intro sys sys1 hinv hrun
    simp only [run, Option.some.injEq] at hrun
    subst hrun
    exact hinv
  | cons e es ih =>
    intro sys sys1 hinv hrun
    simp only [run] at hrun
    split at hrun
    · exact absurd hrun (by simp)
    · rename_i sys2 hstep
      exact ih (step_sendInvariant e hinv hstep) hrun

theorem reachable_sendInvariant {sys : Sys} (h : Reachable sys) : sendInvariant sys := by
  obtain ⟨es, hrun⟩ := h
  exact run_sendInvariant es (by simp [sendInvariant, Sys.initial, initialState]) hrun

/-- C9, as stated, fails: after the user sends a question and opens the map before the
reply arrives, the chat request and the GeoJSON request are in flight together. -/
theorem two_requests_in_flight :
    (run Sys.initial sendThenOpenMap).map (fun sys => sys.inFlight.map InFlight.request) =
      some [Request.chat "Where is B?", Request.geojson] := rfl

theorem two_geojson_requests_in_flight :
    (run Sys.initial [Event.toggleMap, Event.toggleMap, Event.toggleMap]).map
        (fun sys => sys.inFlight.map InFlight.request) =
      some [Request.geojson, Request.geojson] := rfl

theorem busySys_reachable : Reachable busySys :=
  ⟨sendThenOpenMap, rfl⟩

/-- C9, amended: a run of `handleSend` sends nothing, or the chat request alone, or the
chat request and then the route request, the latter only when the chat request has
settled with a response; and in every reachable state at most one request of
`handleSend` is in flight. -/
theorem handleSend_requests_in_sequence (sys : Sys) (h : Reachable sys) (s : State)
    (chat route : Option Json) :
    ((handleSend s chat route).2 = [] ∨
      (handleSend s chat route).2 = [Request.chat s.input] ∨
      ∃ data, chat = some data ∧
        (handleSend s chat route).2 =
          [Request.chat s.input,
            Request.calcularRota (field data "origem") (field data "destino")]) ∧
    sys.inFlight.countP InFlight.ofHandleSend ≤ 1 := by
  constructor
  · by_cases hb : jsTrim s.input = ""
    · exact Or.inl (by rw [handleSend_blank hb])
    · cases chat with
      | none => exact Or.inr (Or.inl (by rw [handleSend_chatFailed hb (Or.inl rfl)]))
      | some data =>
        by_cases hr : routeWanted data = some true
        · exact Or.inr (Or.inr ⟨data, rfl, by rw [handleSend_route hb hr]⟩)
        · by_cases hd : data = .null
          · exact Or.inr (Or.inl (by rw [handleSend_chatFailed hb (Or.inr (by rw [hd]))]))
          · exact Or.inr (Or.inl (by rw [handleSend_noRoute hb hd hr]))
  · have hinv := reachable_sendInvariant h
    unfold sendInvariant at hinv
    rw [hinv]
    split <;> omega

theorem handleSend_requests_in_sequence_witness :
    Reachable busySys ∧
    (((handleSend askedState (some navData) none).2 = [] ∨
      (handleSend askedState (some navData) none).2 = [Request.chat askedState.input] ∨
      ∃ data, some navData = some data ∧
        (handleSend askedState (some navData) none).2 =
          [Request.chat askedState.input,
            Request.calcularRota (field data "origem") (field data "destino")]) ∧
    busySys.inFlight.countP InFlight.ofHandleSend ≤ 1) :=
  ⟨busySys_reachable,
    handleSend_requests_in_sequence busySys busySys_reachable askedState (some navData) none⟩

/-! ## Feature style -/

theorem nameIncludes_absent : nameIncludes none = some none := rfl

theorem nameIncludes_str (t : String) :
    nameIncludes (some (.str t)) =
      some (some (.bool (decide ("Fanshawe".toList <:+: t.toList)))) := rfl

theorem isCollege_eq {feature p : Json} {inc : JsVal}
    (hp : getProp feature "properties" = some (some p)) (hnull : p ≠ .null)
    (hn : nameIncludes (field p "name") = some inc) :
    isCollege feature =
      some (truthy inc || strictEq (field p "amenity") (some (.str "college"))) := by
  simp only [isCollege, hp, getPropV, getProp_of_ne_null hnull, hn]
  cases truthy inc <;> simp

theorem featureFill_eq {feature p : Json} (college : Bool) (routeData : Json)
    (hp : getProp feature "properties" = some (some p)) (hnull : p ≠ .null) :
    featureFill college feature routeData =
      some (if (truthy (some routeData) && truthy (field p "ref") &&
                strictEq (field p "ref") (field routeData "origem")) = true then
              ("#27ae60", 0.7)
            else if (truthy (some routeData) && truthy (field p "ref") &&
                strictEq (field p "ref") (field routeData "destino")) = true then
              ("#e74c3c", 0.7)
            else if college = true then ("#764ba2", 0.3)
            else ("#bdc3c7", 0.1)) := by
  unfold featureFill
  by_cases hr : truthy (some routeData) = true
  · have hrn : routeData ≠ .null := by
      rintro rfl
      simp [truthy] at hr
    simp only [hr, if_true, hp, getPropV, getProp_of_ne_null hnull, getProp_of_ne_null hrn,
      Bool.true_and]
    by_cases h1 : truthy (field p "ref") = true
    · by_cases h2 : strictEq (field p "ref") (field routeData "origem") = true
      · simp [h1, h2]
      · by_cases h3 : strictEq (field p "ref") (field routeData "destino") = true
        · simp [h1, h2, h3]
        · cases college <;> simp [h1, h2, h3]
    · cases college <;> simp [h1]
  · cases college <;> simp [hr]

theorem nameIncludes_of_testable {name : JsVal} (h : nameTestable name = true) :
    ∃ inc : JsVal, nameIncludes name = some inc ∧ truthy inc = containsFanshawe name := by
  cases name with
  | none => exact ⟨none, rfl, rfl⟩
  | some j =>
    cases j with
    | null => exact ⟨none, rfl, rfl⟩
    | str t => exact ⟨_, rfl, rfl⟩
    | arr xs => exact ⟨_, rfl, rfl⟩
    | bool b => simp [nameTestable] at h
    | num q => simp [nameTestable] at h
    | obj kvs => simp [nameTestable] at h

/-- C10: for a feature whose `properties` is a value `p` other than `null` and whose
`name` is absent, `null`, a string or an array, and for every `routeData`,
`getFeatureStyle` returns a style whose fill is chosen in this order: green `#27ae60`
at 0.7 when the route is set and the non-empty `ref` is the route origin; else red
`#e74c3c` at 0.7 when that `ref` is the route destination; else purple `#764ba2` at 0.3
for a college building (its name contains "Fanshawe" or its amenity is "college") and
grey `#bdc3c7` at 0.1 otherwise.  Border colour and weight are fixed by the college
test alone. -/
theorem getFeatureStyle_conditionals (feature p routeData : Json)
    (hp : getProp feature "properties" = some (some p)) (hnull : p ≠ .null)
    (hname : nameTestable (field p "name") = true) :
    ∃ st : Style, getFeatureStyle feature routeData = some st ∧
      (st.fillColor, st.fillOpacity) =
        (if (truthy (some routeData) && truthy (field p "ref") &&
              strictEq (field p "ref") (field routeData "origem")) = true then
            ("#27ae60", 0.7)
          else if (truthy (some routeData) && truthy (field p "ref") &&
              strictEq (field p "ref") (field routeData "destino")) = true then
            ("#e74c3c", 0.7)
          else if (containsFanshawe (field p "name") ||
              strictEq (field p "amenity") (some (.str "college"))) = true
            then ("#764ba2", 0.3)
          else ("#bdc3c7", 0.1)) ∧
      st.color =
        (if (containsFanshawe (field p "name") ||
            strictEq (field p "amenity") (some (.str "college"))) = true
          then "#667eea" else "#95a5a6") ∧
      st.weight =
        (if (containsFanshawe (field p "name") ||
            strictEq (field p "amenity") (some (.str "college"))) = true
          then 3 else 2) := by
  obtain ⟨inc, hn, hinc⟩ := nameIncludes_of_testable hname
  have hc := isCollege_eq hp hnull hn
  rw [hinc] at hc
  have hf := featureFill_eq
    (containsFanshawe (field p "name") || strictEq (field p "amenity") (some (.str "college")))
    routeData hp hnull
  simp only [getFeatureStyle, hc, hf]
  exact ⟨_, rfl, rfl, rfl, rfl⟩

theorem getFeatureStyle_buildingB :
    getFeatureStyle buildingB routeAB =
      some { color := "#667eea", weight := 3, fillOpacity := 0.7, fillColor := "#e74c3c" } :=
  rfl

theorem getFeatureStyle_libraryBuilding :
    getFeatureStyle libraryBuilding routeAB =
      some { color := "#95a5a6", weight := 2, fillOpacity := 0.1, fillColor := "#bdc3c7" } :=
  rfl

theorem getFeatureStyle_conditionals_witness :
    getProp buildingB "properties" = some (some buildingProps) ∧
    buildingProps ≠ .null ∧
    nameTestable (field buildingProps "name") = true ∧
    ∃ st : Style, getFeatureStyle buildingB routeAB = some st ∧
      (st.fillColor, st.fillOpacity) =
        (if (truthy (some routeAB) && truthy (field buildingProps "ref") &&
              strictEq (field buildingProps "ref") (field routeAB "origem")) = true then
            ("#27ae60", 0.7)
          else if (truthy (some routeAB) && truthy (field buildingProps "ref") &&
              strictEq (field buildingProps "ref") (field routeAB "destino")) = true then
            ("#e74c3c", 0.7)
          else if (containsFanshawe (field buildingProps "name") ||
              strictEq (field buildingProps "amenity") (some (.str "college"))) = true
            then ("#764ba2", 0.3)
          else ("#bdc3c7", 0.1)) ∧
      st.color =
        (if (containsFanshawe (field buildingProps "name") ||
            strictEq (field buildingProps "amenity") (some (.str "college"))) = true
          then "#667eea" else "#95a5a6") ∧
      st.weight =
        (if (containsFanshawe (field buildingProps "name") ||
            strictEq (field buildingProps "amenity") (some (.str "college"))) = true
          then 3 else 2) :=
  ⟨rfl, fun h => Json.noConfusion h, rfl,
    getFeatureStyle_conditionals buildingB buildingProps routeAB rfl
      (fun h => Json.noConfusion h) rfl⟩

/-! ## The chat request and the reply -/

theorem handleSend_messages_of_ne_null {s : State} (h : jsTrim s.input ≠ "") {d : Json}
    (hd : d ≠ .null) (route : Option Json) :
    (handleSend s (some d) route).1.messages =
      s.messages ++ [userMessage s.input, botResponse d] := by
  by_cases hr : routeWanted d = some true
  · rw [handleSend_route h hr]
    cases route <;> simp [awaitingChat, appendMessage]
  · simp [handleSend_noRoute h hd hr, awaitingChat, appendMessage]

theorem handleSend_first_request {s : State} (h : jsTrim s.input ≠ "")
    (chat route : Option Json) :
    (handleSend s chat route).2.head? = some (Request.chat s.input) := by
  cases hc : handleSendChatSettled (awaitingChat s) chat with
  | mk s2 r => cases r <;> simp [handleSend, handleSendCall_of_not_blank h, hc]

/-- C11: for a chat response `d` (a parsed body other than `null`) the first request of
the run carries the input text as `mensagem`, and the assistant message appended after
the user message has content `d.resposta` when that is truthy (present and not empty)
and the fixed text otherwise; two responses with the same `resposta` give the same
message list, whatever their `tipo`, `origem` and `destino`. -/
theorem chat_request_and_reply (s : State) (d : Json) (route : Option Json)
    (h : jsTrim s.input ≠ "") (hd : d ≠ .null) :
    (handleSend s (some d) route).2.head? = some (Request.chat s.input) ∧
    (handleSend s (some d) route).1.messages =
      s.messages ++
        [{ role := "user", content := .str s.input },
         { role := "assistant"
           content :=
            match field d "resposta" with
            | some r =>
              if truthy (some r) = true then r
              else .str "Sorry, I couldn\x27t process that request."
            | none => .str "Sorry, I couldn\x27t process that request." }] ∧
    ∀ (d2 : Json) (route2 : Option Json), d2 ≠ .null →
      field d2 "resposta" = field d "resposta" →
      (handleSend s (some d2) route2).1.messages =
        (handleSend s (some d) route).1.messages := by
  refine ⟨handleSend_first_request h _ _, ?_, ?_⟩
  · rw [handleSend_messages_of_ne_null h hd]
    simp only [userMessage, botResponse, jsOr, fallbackText]
  · intro d2 route2 hd2 hres
    rw [handleSend_messages_of_ne_null h hd, handleSend_messages_of_ne_null h hd2]
    simp [botResponse, hres]

theorem chat_request_and_reply_witness :
    jsTrim askedState.input ≠ "" ∧ navData ≠ .null ∧
    (handleSend askedState (some navData) none).2.head? =
      some (Request.chat askedState.input) ∧
    (handleSend askedState (some navData) none).1.messages =
      askedState.messages ++
        [{ role := "user", content := .str askedState.input },
         { role := "assistant"
           content :=
            match field navData "resposta" with
            | some r =>
              if truthy (some r) = true then r
              else .str "Sorry, I couldn\x27t process that request."
            | none => .str "Sorry, I couldn\x27t process that request." }] ∧
    (handleSend askedState (some infoData) none).1.messages =
      (handleSend askedState (some navData) none).1.messages :=
  ⟨by decide, fun h => Json.noConfusion h,
    (chat_request_and_reply askedState navData none (by decide)
      (fun h => Json.noConfusion h)).1,
    (chat_request_and_reply askedState navData none (by decide)
      (fun h => Json.noConfusion h)).2.1,
    (chat_request_and_reply askedState navData none (by decide)
      (fun h => Json.noConfusion h)).2.2 infoData none (fun h => Json.noConfusion h) rfl⟩

/-! ## Blank input -/

theorem dropWhile_eq_nil_of_all {α : Type} (p : α → Bool) (l : List α)
    (h : l.all p = true) : l.dropWhile p = [] := by
  induction l with
  | nil => rfl
  | cons a l ih =>
    simp only [List.all_cons, Bool.and_eq_true] at h
    simp [List.dropWhile_cons, h.1, ih h.2]

theorem all_of_dropWhile_eq_nil {α : Type} (p : α → Bool) (l : List α)
    (h : l.dropWhile p = []) : l.all p = true := by
  induction l with
  | nil => rfl
  | cons a l ih =>
    rw [List.dropWhile_cons] at h
    split at h
    · rename_i ha
      simp [ha, ih h]
    · exact absurd h (by simp)

theorem jsTrim_eq_empty_iff (t : String) :
    jsTrim t = "" ↔ t.toList.all isTrimChar = true := by
  constructor
  · intro h
    have h1 : (((t.toList.dropWhile isTrimChar).reverse).dropWhile isTrimChar).reverse = [] := by
      have := congrArg String.data h
      simpa [jsTrim] using this
    have h2 : ((t.toList.dropWhile isTrimChar).reverse).dropWhile isTrimChar = [] :=
      List.reverse_eq_nil_iff.1 h1
    have h3 := all_of_dropWhile_eq_nil _ _ h2
    rw [List.all_reverse] at h3
    have h4 : t.toList.dropWhile isTrimChar = [] := by
      cases hd : t.toList.dropWhile isTrimChar with
      | nil => rfl
      | cons a l =>
        have hhead := List.head_dropWhile_not isTrimChar t.toList (by rw [hd]; simp)
        rw [hd] at h3
        simp only [hd, List.head_cons] at hhead
        simp [hhead] at h3
    exact all_of_dropWhile_eq_nil _ _ h4
  · intro h
    unfold jsTrim
    rw [dropWhile_eq_nil_of_all _ _ h]
    rfl

/-- C13: in a state whose input text is empty or holds only white space, a run of
`handleSend` returns the state as it was (so the message list, the input text,
`loading`, `routeData` and `showMap` are unchanged) and sends no request. -/
theorem handleSend_blank_noop (s : State) (chat route : Option Json)
    (h : s.input.toList.all isTrimChar = true) :
    handleSend s chat route = (s, []) ∧
    (handleSend s chat route).1.messages = s.messages ∧
    (handleSend s chat route).1.input = s.input ∧
    (handleSend s chat route).1.loading = s.loading ∧
    (handleSend s chat route).1.routeData = s.routeData ∧
    (handleSend s chat route).1.showMap = s.showMap ∧
    (handleSend s chat route).2 = [] := by
  have hb := handleSend_blank ((jsTrim_eq_empty_iff s.input).2 h) chat route
  rw [hb]
  exact ⟨rfl, rfl, rfl, rfl, rfl, rfl, rfl⟩

theorem handleSend_blank_noop_witness :
    blankState.input.toList.all isTrimChar = true ∧
    handleSend blankState (some navData) none = (blankState, []) :=
  ⟨by decide, (handleSend_blank_noop blankState (some navData) none (by decide)).1⟩

/-! ## Invariant of the message list -/

theorem Extends.refl (ms : List Message) : Extends ms ms :=
  ⟨[], by simp, by simp⟩

theorem Extends.single (ms : List Message) {m : Message} (hm : roleOk m) :
    Extends ms (ms ++ [m]) :=
  ⟨[m], rfl, by simpa using hm⟩

theorem Extends.trans {a b c : List Message} (h1 : Extends a b) (h2 : Extends b c) :
    Extends a c := by
  obtain ⟨e1, rfl, he1⟩ := h1
  obtain ⟨e2, rfl, he2⟩ := h2
  refine ⟨e1 ++ e2, by simp, ?_⟩
  intro m hm
  rcases List.mem_append.1 hm with h | h
  · exact he1 m h
  · exact he2 m h

theorem messagesInvariant_of_extends {a b : List Message} (ha : messagesInvariant a)
    (h : Extends a b) : messagesInvariant b := by
  obtain ⟨e, rfl, he⟩ := h
  obtain ⟨hhead, hroles⟩ := ha
  constructor
  · cases a with
    | nil => simp at hhead
    | cons x xs => simpa using hhead
  · intro m hm
    rcases List.mem_append.1 hm with h | h
    · exact hroles m h
    · exact he m h

theorem messagesInvariant_initial : messagesInvariant [greeting] :=
  ⟨rfl, by
    intro m hm
    simp only [List.mem_singleton] at hm
    subst hm
    exact Or.inr rfl⟩

theorem handleSendCatch_extends (s : State) :
    Extends s.messages (handleSendCatch s).messages :=
  Extends.single _ (Or.inr rfl)

theorem handleSendTail_extends (data : Json) (s : State) :
    Extends s.messages (handleSendTail data s).messages := by
  unfold handleSendTail
  split
  · exact Extends.refl _
  · exact handleSendCatch_extends s

theorem handleSendCall_extends {s s1 : State} {req : Request}
    (h : handleSendCall s = some (s1, req)) : Extends s.messages s1.messages := by
  unfold handleSendCall at h
  split at h
  · exact absurd h (by simp)
  · simp only [Option.some.injEq, Prod.mk.injEq] at h
    rw [← h.1]
    exact Extends.single _ (Or.inl rfl)

theorem handleSendChatSettled_extends (s : State) (resp : Option Json) :
    Extends s.messages (handleSendChatSettled s resp).1.messages := by
  cases resp with
  | none => exact handleSendCatch_extends s
  | some data =>
    by_cases hd : data = .null
    · subst hd
      exact handleSendCatch_extends s
    · rw [handleSendChatSettled_of_ne_null hd]
      split <;> exact Extends.single _ (Or.inr rfl)

theorem handleSendRouteSettled_extends (showMap0 : Bool) (data : Json) (s : State)
    (resp : Option Json) :
    Extends s.messages (handleSendRouteSettled showMap0 data s resp).messages := by
  cases resp with
  | none => exact handleSendTail_extends data s
  | some r =>
    exact handleSendTail_extends data
      { s with routeData := r, showMap := if !showMap0 then true else s.showMap }

theorem predioInfoSettled_extends (s : State) (resp : Option Json) :
    Extends s.messages (predioInfoSettled s resp).messages := by
  unfold predioInfoSettled
  repeat' split
  all_goals first
    | exact Extends.refl _
    | exact Extends.single _ (Or.inr rfl)

theorem loadGeoJSONSettled_messages (s : State) (resp : Option Json) :
    (loadGeoJSONSettled s resp).messages = s.messages := by
  cases resp <;> rfl

theorem handleSend_extends (s : State) (chat route : Option Json) :
    Extends s.messages (handleSend s chat route).1.messages := by
  cases hcall : handleSendCall s with
  | none =>
    simp only [handleSend, hcall]
    exact Extends.refl _
  | some p =>
    obtain ⟨s1, req1⟩ := p
    have h1 := handleSendCall_extends hcall
    have h2 := handleSendChatSettled_extends s1 chat
    cases hchat : handleSendChatSettled s1 chat with
    | mk s2 r =>
      rw [hchat] at h2
      cases r with
      | none =>
        simp only [handleSend, hcall, hchat]
        exact h1.trans h2
      | some req2 =>
        simp only [handleSend, hcall, hchat]
        exact (h1.trans h2).trans (handleSendRouteSettled_extends _ _ _ _)

theorem settleEntry_extends (s : State) (e : InFlight) (resp : Option Json) :
    Extends s.messages (settleEntry s e resp).1.messages := by
  cases e with
  | chat m sm =>
    rcases settleEntry_chat s m sm resp with ⟨h1, _⟩ | ⟨o, d, h1, _, _⟩
    · rw [h1]
      exact handleSendChatSettled_extends s resp
    · rw [h1]
      exact handleSendChatSettled_extends s resp
  | calcularRota o d sm data => exact handleSendRouteSettled_extends sm data s resp
  | geojson =>
    simp only [settleEntry, loadGeoJSONSettled_messages]
    exact Extends.refl _
  | predioInfo r => exact predioInfoSettled_extends s resp

theorem newChat_messagesInvariant (s : State) : messagesInvariant (newChat s).messages :=
  messagesInvariant_initial

theorem step_messagesInvariant {sys sys1 : Sys} (e : Event)
    (hinv : messagesInvariant sys.ui.messages) (hstep : step sys e = some sys1) :
    messagesInvariant sys1.ui.messages := by
  cases e with
  | typeInput t =>
    simp only [step] at hstep
    split at hstep
    · exact absurd hstep (by simp)
    · simp only [Option.some.injEq] at hstep
      subst hstep
      exact hinv
  | quickNavigation =>
    simp only [step, Option.some.injEq] at hstep
    subst hstep
    exact hinv
  | quickBuildingInfo =>
    simp only [step, Option.some.injEq] at hstep
    subst hstep
    exact hinv
  | send =>
    simp only [step] at hstep
    split at hstep
    · exact absurd hstep (by simp)
    · split at hstep
      · simp only [Option.some.injEq] at hstep
        subst hstep
        exact hinv
      · rename_i s1 req hcall
        simp only [Option.some.injEq] at hstep
        subst hstep
        exact messagesInvariant_of_extends hinv (handleSendCall_extends hcall)
  | toggleMap =>
    simp only [step, Option.some.injEq] at hstep
    subst hstep
    exact hinv
  | newChat =>
    simp only [step, Option.some.injEq] at hstep
    subst hstep
    exact newChat_messagesInvariant sys.ui
  | clickFeature feature =>
    simp only [step] at hstep
    split at hstep
    · split at hstep
      · simp only [Option.some.injEq] at hstep
        subst hstep
        exact hinv
      · simp only [Option.some.injEq] at hstep
        subst hstep
        exact hinv
    · exact absurd hstep (by simp)
  | settle i resp =>
    simp only [step] at hstep
    split at hstep
    · exact absurd hstep (by simp)
    · rename_i en hget
      simp only [Option.some.injEq] at hstep
      subst hstep
      exact messagesInvariant_of_extends hinv (settleEntry_extends sys.ui en resp)

theorem run_messagesInvariant (es : List Event) :
    ∀ {sys sys1 : Sys}, messagesInvariant sys.ui.messages → run sys es = some sys1 →
      messagesInvariant sys1.ui.messages := by
  induction es with
  | nil =>
    intro sys sys1 hinv hrun
    simp only [run, Option.some.injEq] at hrun
    subst hrun
    exact hinv
  | cons e es ih =>
    intro sys sys1 hinv hrun
    simp only [run] at hrun
    split at hrun
    · exact absurd hrun (by simp)
    · rename_i sys2 hstep
      exact ih (step_messagesInvariant e hinv hstep) hrun

theorem applyOp_messagesInvariant (s : State) (op : Op)
    (hinv : messagesInvariant s.messages) : messagesInvariant (applyOp s op).messages := by
  cases op with
  | setInput t => exact hinv
  | handleSend chat route =>
    exact messagesInvariant_of_extends hinv (handleSend_extends s chat route)
  | buildingClick feature resp =>
    simp only [applyOp, buildingClick]
    split
    · exact hinv
    · exact messagesInvariant_of_extends hinv (predioInfoSettled_extends s resp)
  | newChat => exact newChat_messagesInvariant s
  | toggleMap => exact hinv
  | loadGeoJSON resp =>
    simp only [applyOp, messagesInvariant, loadGeoJSONSettled_messages]
    exact hinv

theorem foldl_applyOp_messagesInvariant (ops : List Op) :
    ∀ s : State, messagesInvariant s.messages →
      messagesInvariant (ops.foldl applyOp s).messages := by
  induction ops with
  | nil => exact fun s h => h
  | cons op ops ih =>
    intro s h
    exact ih (applyOp s op) (applyOp_messagesInvariant s op h)

/-- C14: in every state reached from the initial state, whether by whole runs of
`handleSend`, building clicks, New Chat, `toggleMap` (and typing, and the GeoJSON load)
or by the events of the machine in any interleaving, the message list is not empty, its
first message is the assistant greeting, and every message has role `user` or
`assistant`. -/
theorem messages_invariant (sys : Sys) (ops : List Op) (h : Reachable sys) :
    ((ops.foldl applyOp initialState).messages ≠ [] ∧
      (ops.foldl applyOp initialState).messages.head? = some greeting ∧
      greeting.role = "assistant" ∧
      ∀ m ∈ (ops.foldl applyOp initialState).messages,
        m.role = "user" ∨ m.role = "assistant") ∧
    (sys.ui.messages ≠ [] ∧ sys.ui.messages.head? = some greeting ∧
      ∀ m ∈ sys.ui.messages, m.role = "user" ∨ m.role = "assistant") := by
  have h1 := foldl_applyOp_messagesInvariant ops initialState messagesInvariant_initial
  obtain ⟨es, hrun⟩ := h
  have h2 : messagesInvariant sys.ui.messages :=
    run_messagesInvariant es messagesInvariant_initial hrun
  refine ⟨⟨?_, h1.1, rfl, h1.2⟩, ?_, h2.1, h2.2⟩
  · intro hnil
    rw [hnil] at h1
    exact absurd h1.1 (by simp)
  · intro hnil
    rw [hnil] at h2
    exact absurd h2.1 (by simp)

theorem messages_invariant_witness :
    Reachable busySys ∧
    (sampleOps.foldl applyOp initialState).messages ≠ [] ∧
    (sampleOps.foldl applyOp initialState).messages.head? = some greeting ∧
    busySys.ui.messages ≠ [] ∧ busySys.ui.messages.head? = some greeting :=
  ⟨busySys_reachable,
    (messages_invariant busySys sampleOps busySys_reachable).1.1,
    (messages_invariant busySys sampleOps busySys_reachable).1.2.1,
    (messages_invariant busySys sampleOps busySys_reachable).2.1,
    (messages_invariant busySys sampleOps busySys_reachable).2.2.1⟩

/-! ## Map bounds -/

theorem keepFeature_eq {f : Json} (hf : f ≠ .null) :
    keepFeature f = some (geometryWithCoordinates f).isSome := by
  simp only [keepFeature, geometryWithCoordinates, getProp_of_ne_null hf]
  cases hg : field f "geometry" with
  | none => simp [truthy]
  | some g =>
    by_cases hn : g = .null
    · subst hn
      simp [truthy, field, getProp]
    · simp only [getPropV, getProp_of_ne_null hn]
      cases hc : field g "coordinates" with
      | none => simp [truthy]
      | some c =>
        cases hg2 : truthy (some g) <;> cases hc2 : truthy (some c) <;> simp [hg2, hc2]

theorem featureCoordinates_eq {f : Json} {type : JsVal} {c : Json} (hf : f ≠ .null)
    (h : geometryWithCoordinates f = some (type, c)) :
    featureCoordinates f =
      if strictEq type (some (.str "Point")) then
        match getIndex c 1, getIndex c 0 with
        | some c1, some c0 => some [(c1, c0)]
        | _, _ => none
      else if strictEq type (some (.str "Polygon")) then
        match getIndex c 0 with
        | some (Operand.value (.arr ring)) => mapThrows swapPair ring
        | _ => none
      else some [] := by
  simp only [geometryWithCoordinates] at h
  cases hg : field f "geometry" with
  | none => simp [hg] at h
  | some g =>
    simp only [hg] at h
    cases hc : field g "coordinates" with
    | none => simp [hc] at h
    | some c2 =>
      simp only [hc] at h
      split at h
      · rename_i ht
        simp only [Option.some.injEq, Prod.mk.injEq] at h
        obtain ⟨h1, h2⟩ := h
        subst h1 h2
        have hn : g ≠ .null := by
          rintro rfl
          simp [truthy] at ht
        simp only [featureCoordinates, getProp_of_ne_null hf, hg, getPropV,
          getProp_of_ne_null hn, hc, getIndexV]
      · exact absurd h (by simp)

theorem positionOf_eq_some {v : Json} {p : Rat × Rat} (h : positionOf v = some p) :
    ∃ rest, v = .arr (.num p.2 :: .num p.1 :: rest) := by
  unfold positionOf at h
  split at h
  · rename_i lng lat rest
    simp only [Option.some.injEq] at h
    subst h
    exact ⟨rest, rfl⟩
  · exact absurd h (by simp)

theorem swapPair_of_position {v : Json} {p : Rat × Rat} (h : positionOf v = some p) :
    swapPair v = some (toPair p) := by
  obtain ⟨rest, rfl⟩ := positionOf_eq_some h
  rfl

theorem mapThrows_swapPair (ring : List Json)
    (h : ring.all (fun v => (positionOf v).isSome) = true) :
    mapThrows swapPair ring = some ((ring.filterMap positionOf).map toPair) := by
  induction ring with
  | nil => rfl
  | cons v ring ih =>
    simp only [List.all_cons, Bool.and_eq_true] at h
    obtain ⟨p, hp⟩ := Option.isSome_iff_exists.1 h.1
    simp [mapThrows, swapPair_of_position hp, ih h.2, List.filterMap_cons, hp]

theorem wellFormedFeature_ne_null {f : Json} (h : wellFormedFeature f = true) :
    f ≠ .null := by
  rintro rfl
  simp [wellFormedFeature] at h

theorem verticesOf_of_not_kept {f : Json} (h : (geometryWithCoordinates f).isSome = false) :
    verticesOf f = [] := by
  unfold verticesOf
  cases hg : geometryWithCoordinates f with
  | none => rfl
  | some tc => simp [hg] at h

theorem wellFormedFeature_eq {f : Json} (hf : f ≠ .null) :
    wellFormedFeature f =
      match geometryWithCoordinates f with
      | some (type, c) =>
        if strictEq type (some (.str "Point")) then (positionOf c).isSome
        else if strictEq type (some (.str "Polygon")) then
          match c with
          | .arr (.arr ring :: _) => ring.all (fun v => (positionOf v).isSome)
          | _ => false
        else true
      | none => true := by
  cases f <;> first
    | exact absurd rfl hf
    | rfl

theorem featureCoordinates_of_wellFormed {f : Json} (hwf : wellFormedFeature f = true)
    (hk : (geometryWithCoordinates f).isSome = true) :
    featureCoordinates f = some ((verticesOf f).map toPair) := by
  have hf := wellFormedFeature_ne_null hwf
  obtain ⟨⟨type, c⟩, hg⟩ := Option.isSome_iff_exists.1 hk
  rw [featureCoordinates_eq hf hg]
  rw [wellFormedFeature_eq hf, hg] at hwf
  simp only [verticesOf, hg]
  simp only at hwf
  by_cases h1 : strictEq type (some (.str "Point")) = true
  · simp only [h1, if_true] at hwf ⊢
    obtain ⟨p, hp⟩ := Option.isSome_iff_exists.1 hwf
    obtain ⟨rest, rfl⟩ := positionOf_eq_some hp
    simp [getIndex, positionOf, toPair]
  · simp only [h1, Bool.false_eq_true, if_false] at hwf ⊢
    by_cases h2 : strictEq type (some (.str "Polygon")) = true
    · simp only [h2, if_true] at hwf ⊢
      split at hwf
      · simp only [getIndex, List.get?_cons_zero]
        exact mapThrows_swapPair _ hwf
      · exact absurd hwf (by simp)
    · simp [h2]

theorem filterThrows_keepFeature (fs : List Json)
    (h : ∀ f ∈ fs, wellFormedFeature f = true) :
    filterThrows keepFeature fs =
      some (fs.filter (fun f => (geometryWithCoordinates f).isSome)) := by
  induction fs with
  | nil => rfl
  | cons f fs ih =>
    have hf := wellFormedFeature_ne_null (h f (List.mem_cons_self f fs))
    have ih2 := ih (fun g hg => h g (List.mem_cons_of_mem f hg))
    simp only [filterThrows, keepFeature_eq hf, ih2, List.filter_cons]

theorem mapThrows_featureCoordinates (fs : List Json)
    (h : ∀ f ∈ fs, wellFormedFeature f = true ∧ (geometryWithCoordinates f).isSome = true) :
    mapThrows featureCoordinates fs = some (fs.map (fun f => (verticesOf f).map toPair)) := by
  induction fs with
  | nil => rfl
  | cons f fs ih =>
    obtain ⟨h1, h2⟩ := h f (List.mem_cons_self f fs)
    have ih2 := ih (fun g hg => h g (List.mem_cons_of_mem f hg))
    simp only [mapThrows, featureCoordinates_of_wellFormed h1 h2, ih2, List.map_cons]

theorem flatten_map_filter {α β : Type} (p : α → Bool) (g : α → List β) (l : List α)
    (h : ∀ a, p a = false → g a = []) :
    ((l.filter p).map g).flatten = (l.map g).flatten := by
  induction l with
  | nil => rfl
  | cons a l ih =>
    cases hp : p a with
    | true => simp [List.filter_cons, hp, ih]
    | false => simp [List.filter_cons, hp, ih, h a hp]

theorem collectCoordinates_eq (fs : List Json)
    (h : ∀ f ∈ fs, wellFormedFeature f = true) :
    collectCoordinates fs = some ((fs.flatMap verticesOf).map toPair) := by
  have hkept : ∀ f ∈ fs.filter (fun f => (geometryWithCoordinates f).isSome),
      wellFormedFeature f = true ∧ (geometryWithCoordinates f).isSome = true := by
    intro f hf
    rw [List.mem_filter] at hf
    exact ⟨h f hf.1, hf.2⟩
  simp only [collectCoordinates, filterThrows_keepFeature fs h,
    mapThrows_featureCoordinates _ hkept]
  rw [flatten_map_filter (fun f => (geometryWithCoordinates f).isSome)
    (fun f => (verticesOf f).map toPair) fs
    (fun f hf => by simp [verticesOf_of_not_kept hf])]
  simp [List.flatMap, List.map_flatten, List.map_map, Function.comp_def]

theorem toNumbers_nums (qs : List Rat) :
    toNumbers (qs.map (fun x => Operand.value (.num x))) = some (qs.map JsNumber.num) := by
  induction qs with
  | nil => rfl
  | cons q qs ih => simp only [List.map_cons, toNumbers, toNumber, ih]

theorem foldl_combineNumbers_num (pick : Rat → Rat → Rat) (qs : List Rat) :
    ∀ q : Rat,
      (qs.map JsNumber.num).foldl (combineNumbers pick) (JsNumber.num q) =
        JsNumber.num (qs.foldl pick q) := by
  induction qs with
  | nil => exact fun q => rfl
  | cons x qs ih =>
    intro q
    simp only [List.map_cons, List.foldl_cons, combineNumbers]
    exact ih (pick q x)

theorem mathExtreme_nums (pick : Rat → Rat → Rat) (q : Rat) (qs : List Rat)
    (hlen : qs.length + 1 ≤ spreadSafe) :
    mathExtreme pick (Operand.value (.num q)) (qs.map (fun x => Operand.value (.num x))) =
      some (JsNumber.num (qs.foldl pick q)) := by
  simp only [mathExtreme, List.length_map, hlen, if_true, toNumber, toNumbers_nums,
    foldl_combineNumbers_num]

theorem foldl_min_le (qs : List Rat) :
    ∀ q : Rat, qs.foldl min q ≤ q ∧ ∀ x ∈ qs, qs.foldl min q ≤ x := by
  induction qs with
  | nil => exact fun q => ⟨le_refl q, by simp⟩
  | cons a qs ih =>
    intro q
    obtain ⟨h1, h2⟩ := ih (min q a)
    refine ⟨le_trans h1 (min_le_left q a), ?_⟩
    intro x hx
    rcases List.mem_cons.1 hx with rfl | hx
    · exact le_trans h1 (min_le_right q x)
    · exact h2 x hx

theorem foldl_min_mem (qs : List Rat) :
    ∀ q : Rat, qs.foldl min q ∈ q :: qs := by
  induction qs with
  | nil => exact fun q => List.mem_singleton.2 rfl
  | cons a qs ih =>
    intro q
    have h := ih (min q a)
    simp only [List.foldl_cons]
    rcases List.mem_cons.1 h with h | h
    · rw [h]
      rcases min_choice q a with hq | ha
      · rw [hq]
        exact List.mem_cons_self q _
      · rw [ha]
        exact List.mem_cons_of_mem q (List.mem_cons_self a qs)
    · exact List.mem_cons_of_mem q (List.mem_cons_of_mem a h)

theorem le_foldl_max (qs : List Rat) :
    ∀ q : Rat, q ≤ qs.foldl max q ∧ ∀ x ∈ qs, x ≤ qs.foldl max q := by
  induction qs with
  | nil => exact fun q => ⟨le_refl q, by simp⟩
  | cons a qs ih =>
    intro q
    obtain ⟨h1, h2⟩ := ih (max q a)
    refine ⟨le_trans (le_max_left q a) h1, ?_⟩
    intro x hx
    rcases List.mem_cons.1 hx with rfl | hx
    · exact le_trans (le_max_right q x) h1
    · exact h2 x hx

theorem foldl_max_mem (qs : List Rat) :
    ∀ q : Rat, qs.foldl max q ∈ q :: qs := by
  induction qs with
  | nil => exact fun q => List.mem_singleton.2 rfl
  | cons a qs ih =>
    intro q
    have h := ih (max q a)
    simp only [List.foldl_cons]
    rcases List.mem_cons.1 h with h | h
    · rw [h]
      rcases max_choice q a with hq | ha
      · rw [hq]
        exact List.mem_cons_self q _
      · rw [ha]
        exact List.mem_cons_of_mem q (List.mem_cons_self a qs)
    · exact List.mem_cons_of_mem q (List.mem_cons_of_mem a h)

theorem mathExtreme_toPair_fst (pick : Rat → Rat → Rat) (v : Rat × Rat)
    (rest : List (Rat × Rat)) (hlen : rest.length + 1 ≤ spreadSafe) :
    mathExtreme pick (toPair v).1 ((rest.map toPair).map (fun p => p.1)) =
      some (JsNumber.num ((rest.map (fun p => p.1)).foldl pick v.1)) := by
  have h := mathExtreme_nums pick v.1 (rest.map (fun p => p.1)) (by simpa using hlen)
  simpa [toPair, List.map_map, Function.comp_def] using h

theorem mathExtreme_toPair_snd (pick : Rat → Rat → Rat) (v : Rat × Rat)
    (rest : List (Rat × Rat)) (hlen : rest.length + 1 ≤ spreadSafe) :
    mathExtreme pick (toPair v).2 ((rest.map toPair).map (fun p => p.2)) =
      some (JsNumber.num ((rest.map (fun p => p.2)).foldl pick v.2)) := by
  have h := mathExtreme_nums pick v.2 (rest.map (fun p => p.2)) (by simpa using hlen)
  simpa [toPair, List.map_map, Function.comp_def] using h

theorem other_geometry_contributes_nothing {f : Json} (hf : f ≠ .null) :
    (geometryWithCoordinates f = none → keepFeature f = some false) ∧
    (∀ (type : JsVal) (c : Json), geometryWithCoordinates f = some (type, c) →
      strictEq type (some (.str "Point")) = false →
      strictEq type (some (.str "Polygon")) = false →
      featureCoordinates f = some []) := by
  constructor
  · intro h
    rw [keepFeature_eq hf, h]
    rfl
  · intro type c h h1 h2
    rw [featureCoordinates_eq hf h]
    simp [h1, h2]

theorem computeBounds_of_wellFormed {data : Json} {features : List Json}
    (hf : getProp data "features" = some (some (.arr features)))
    (hwf : ∀ f ∈ features, wellFormedFeature f = true)
    (hlen : (features.flatMap verticesOf).length ≤ spreadSafe) :
    computeBounds data =
      match features.flatMap verticesOf with
      | [] => none
      | v :: rest =>
        some (MapBounds.box
          { minLat := JsNumber.num ((rest.map (fun p => p.1)).foldl min v.1)
            minLng := JsNumber.num ((rest.map (fun p => p.2)).foldl min v.2)
            maxLat := JsNumber.num ((rest.map (fun p => p.1)).foldl max v.1)
            maxLng := JsNumber.num ((rest.map (fun p => p.2)).foldl max v.2) }) := by
  cases features with
  | nil => simp [computeBounds, hf]
  | cons f fs =>
    simp only [computeBounds, hf, collectCoordinates_eq (f :: fs) hwf]
    cases hl : (f :: fs).flatMap verticesOf with
    | nil => rfl
    | cons v rest =>
      have hlen2 : rest.length + 1 ≤ spreadSafe := by
        rw [hl] at hlen
        simpa using hlen
      simp only [List.map_cons, mathMin, mathMax, mathExtreme_toPair_fst _ v rest hlen2,
        mathExtreme_toPair_snd _ v rest hlen2]

/-- C12, as stated, fails: beside a Point with coordinates, a Polygon whose
`coordinates` is the empty array makes the callback of line 62 throw, so `mapBounds`
stays `null`; and a Point whose `coordinates` is the empty array makes all four
bounds `NaN`, so the vertex of the first Point does not lie inside them. -/
theorem bounds_lost_or_nan :
    featureCoordinates pointA = some [toPair (43, -81)] ∧
    (loadGeoJSONSettled initialState (some emptyPolygonCollection)).mapBounds =
      MapBounds.null ∧
    (loadGeoJSONSettled initialState (some emptyPointCollection)).mapBounds =
      MapBounds.box { minLat := JsNumber.nan, minLng := JsNumber.nan
                      maxLat := JsNumber.nan, maxLng := JsNumber.nan } :=
  ⟨rfl, rfl, rfl⟩

/-- C12, amended: for a collection `data` whose `features` are well formed (no `null`
feature, Point coordinates a position of numbers, Polygon coordinates starting with a
ring of such positions) and give no more vertices than one spread call accepts,
`loadGeoJSON` stores the collection and, with `vs` the vertices of all Points and of
the first ring of all Polygons, each swapped from `[lng, lat]` to `(lat, lng)` (other
geometry types and features without coordinates give none): when `vs` is empty
`mapBounds` is left unchanged; otherwise `mapBounds` becomes
`[[minLat, minLng], [maxLat, maxLng]]`, numbers that bound every vertex and are each
attained by a vertex. -/
theorem loadGeoJSON_bounds (s : State) (data : Json) (features : List Json)
    (hf : getProp data "features" = some (some (.arr features)))
    (hall : features.all wellFormedFeature = true)
    (hlen : (features.flatMap verticesOf).length ≤ spreadSafe) :
    (loadGeoJSONSettled s (some data)).geoJsonData = data ∧
    (features.flatMap verticesOf = [] →
      (loadGeoJSONSettled s (some data)).mapBounds = s.mapBounds) ∧
    (features.flatMap verticesOf ≠ [] →
      ∃ minLat minLng maxLat maxLng : Rat,
        (loadGeoJSONSettled s (some data)).mapBounds =
          MapBounds.box { minLat := JsNumber.num minLat, minLng := JsNumber.num minLng
                          maxLat := JsNumber.num maxLat, maxLng := JsNumber.num maxLng } ∧
        (∀ v ∈ features.flatMap verticesOf,
          minLat ≤ v.1 ∧ v.1 ≤ maxLat ∧ minLng ≤ v.2 ∧ v.2 ≤ maxLng) ∧
        (∃ v ∈ features.flatMap verticesOf, v.1 = minLat) ∧
        (∃ v ∈ features.flatMap verticesOf, v.2 = minLng) ∧
        (∃ v ∈ features.flatMap verticesOf, v.1 = maxLat) ∧
        (∃ v ∈ features.flatMap verticesOf, v.2 = maxLng)) := by
  have hwf : ∀ f ∈ features, wellFormedFeature f = true := List.all_eq_true.1 hall
  have hb := computeBounds_of_wellFormed hf hwf hlen
  refine ⟨rfl, ?_, ?_⟩
  · intro hvs
    rw [hvs] at hb
    simp [loadGeoJSONSettled, hb]
  · intro hvs
    cases hl : features.flatMap verticesOf with
    | nil => exact absurd hl hvs
    | cons v rest =>
      rw [hl] at hb
      refine ⟨(rest.map (fun p => p.1)).foldl min v.1, (rest.map (fun p => p.2)).foldl min v.2,
        (rest.map (fun p => p.1)).foldl max v.1, (rest.map (fun p => p.2)).foldl max v.2,
        by simp only [loadGeoJSONSettled, hb], ?_, ?_, ?_, ?_, ?_⟩
      · intro w hw
        have hmin1 := foldl_min_le (rest.map (fun p => p.1)) v.1
        have hmin2 := foldl_min_le (rest.map (fun p => p.2)) v.2
        have hmax1 := le_foldl_max (rest.map (fun p => p.1)) v.1
        have hmax2 := le_foldl_max (rest.map (fun p => p.2)) v.2
        rcases List.mem_cons.1 hw with rfl | hw
        · exact ⟨hmin1.1, hmax1.1, hmin2.1, hmax2.1⟩
        · exact ⟨hmin1.2 _ (List.mem_map_of_mem _ hw), hmax1.2 _ (List.mem_map_of_mem _ hw),
            hmin2.2 _ (List.mem_map_of_mem _ hw), hmax2.2 _ (List.mem_map_of_mem _ hw)⟩
      · have h := foldl_min_mem (rest.map (fun p => p.1)) v.1
        rw [← List.map_cons (fun p : Rat × Rat => p.1)] at h
        obtain ⟨w, hw, hw2⟩ := List.mem_map.1 h
        exact ⟨w, hw, hw2⟩
      · have h := foldl_min_mem (rest.map (fun p => p.2)) v.2
        rw [← List.map_cons (fun p : Rat × Rat => p.2)] at h
        obtain ⟨w, hw, hw2⟩ := List.mem_map.1 h
        exact ⟨w, hw, hw2⟩
      · have h := foldl_max_mem (rest.map (fun p => p.1)) v.1
        rw [← List.map_cons (fun p : Rat × Rat => p.1)] at h
        obtain ⟨w, hw, hw2⟩ := List.mem_map.1 h
        exact ⟨w, hw, hw2⟩
      · have h := foldl_max_mem (rest.map (fun p => p.2)) v.2
        rw [← List.map_cons (fun p : Rat × Rat => p.2)] at h
        obtain ⟨w, hw, hw2⟩ := List.mem_map.1 h
        exact ⟨w, hw, hw2⟩

theorem campus_vertices :
    campusFeatures.flatMap verticesOf = [(43, -81), (42, -82), (42, -80), (44, -80), (42, -82)] :=
  rfl

theorem loadGeoJSON_campus :
    (loadGeoJSONSettled initialState (some campusCollection)).mapBounds =
      MapBounds.box { minLat := JsNumber.num 42, minLng := JsNumber.num (-82)
                      maxLat := JsNumber.num 44, maxLng := JsNumber.num (-80) } := by
  rfl

theorem loadGeoJSON_bounds_witness :
    getProp campusCollection "features" = some (some (.arr campusFeatures)) ∧
    campusFeatures.all wellFormedFeature = true ∧
    (campusFeatures.flatMap verticesOf).length ≤ spreadSafe ∧
    campusFeatures.flatMap verticesOf ≠ [] ∧
    ∃ minLat minLng maxLat maxLng : Rat,
      (loadGeoJSONSettled initialState (some campusCollection)).mapBounds =
        MapBounds.box { minLat := JsNumber.num minLat, minLng := JsNumber.num minLng
                        maxLat := JsNumber.num maxLat, maxLng := JsNumber.num maxLng } ∧
      (∀ v ∈ campusFeatures.flatMap verticesOf,
        minLat ≤ v.1 ∧ v.1 ≤ maxLat ∧ minLng ≤ v.2 ∧ v.2 ≤ maxLng) ∧
      (∃ v ∈ campusFeatures.flatMap verticesOf, v.1 = minLat) ∧
      (∃ v ∈ campusFeatures.flatMap verticesOf, v.2 = minLng) ∧
      (∃ v ∈ campusFeatures.flatMap verticesOf, v.1 = maxLat) ∧
      (∃ v ∈ campusFeatures.flatMap verticesOf, v.2 = maxLng) :=
  ⟨rfl, rfl, by rw [campus_vertices]; decide,
    by rw [campus_vertices]; exact List.cons_ne_nil _ _,
    (loadGeoJSON_bounds initialState campusCollection campusFeatures rfl rfl
      (by rw [campus_vertices]; decide)).2.2
      (by rw [campus_vertices]; exact List.cons_ne_nil _ _)⟩

end FanshaweNavigator
